import Mathlib

/-!
Verification of `convert_scion_topology.py`: a shallow embedding in Lean 4 of
the script's data model and operations, together with theorems settling the
specification's claims.

Python dicts are modelled as insertion-ordered association lists; Python's
arbitrary-precision non-negative integers as `Nat`; code that can raise an
exception returns `Option` (with `none` meaning the run crashes).
-/

/-- Association-list lookup for the allocator's `port_assignments` dict
(`Key: (smaller_node, larger_node, link_index), Value: port`). -/
def lookupA : List ((Nat × Nat × Nat) × Nat) → (Nat × Nat × Nat) → Option Nat
  | [], _ => none
  | e :: rest, k => if e.1 = k then some e.2 else lookupA rest k

/-- `link_counters.get(node_pair, 0)`: dict lookup with default 0. -/
def ctrGet : List ((Nat × Nat) × Nat) → (Nat × Nat) → Nat
  | [], _ => 0
  | e :: rest, k => if e.1 = k then e.2 else ctrGet rest k

/-- `link_counters[node_pair] = v`: Python dict assignment (replace in place
if the key exists, else append preserving insertion order). -/
def ctrSet (l : List ((Nat × Nat) × Nat)) (k : Nat × Nat) (v : Nat) :
    List ((Nat × Nat) × Nat) :=
  if l.any (fun e => decide (e.1 = k)) then
    l.map (fun e => if e.1 = k then (k, v) else e)
  else l ++ [(k, v)]

/-- Python dict assignment `d[k] = v` for string-keyed dicts
(`all_interfaces[interface_id] = interface_data`): replace in place on
collision (last-seen value wins), else append in insertion order. -/
def dictInsert {α : Type} (l : List (String × α)) (k : String) (v : α) :
    List (String × α) :=
  if l.any (fun e => decide (e.1 = k)) then
    l.map (fun e => if e.1 = k then (k, v) else e)
  else l ++ [(k, v)]

/-- Python `s.split(c)` for a one-character separator, via an accumulator
over the string's characters. -/
def splitAux (c : Char) : List Char → List Char → List String
  | [], acc => [String.mk acc.reverse]
  | x :: xs, acc =>
    if x = c then String.mk acc.reverse :: splitAux c xs []
    else splitAux c xs (x :: acc)

/-- Python `s.split(c)` (single-character separator). -/
def pySplit (s : String) (c : Char) : List String :=
  splitAux c s.toList []

/-- `addr.split(':')[1]` — the second chunk of a `host:port` string;
`none` models Python's `IndexError` crash when there is no `':'`. -/
def splitPort (addr : String) : Option String :=
  (pySplit addr ':')[1]?

/-- Numeric value of a digit string, as produced by Python's `int()` on the
digits captured by the trailing-number regexes. -/
def digitsToNat (ds : List Char) : Nat :=
  ds.foldl (fun acc c => acc * 10 + (c.toNat - 48)) 0

/-- Trailing-digit-run matcher shared by the two regexes `_(\d+)$` and
`:(\d+)$`: succeeds iff the string ends in at least one digit and the
character immediately before that maximal digit run is `sep`; returns the
value of the digit run. -/
def trailingNumberAfter (sep : Char) (s : String) : Option Nat :=
  let rev := s.toList.reverse
  let revDigits := rev.takeWhile (fun c => c.isDigit)
  match revDigits, rev.drop revDigits.length with
  | [], _ => none
  | _, [] => none
  | ds, c :: _ => if c = sep then some (digitsToNat ds.reverse) else none

/-- `extract_as_number`: `re.search(r'_(\d+)$', as_name)`, `int` of group 1. -/
def extract_as_number (as_name : String) : Option Nat :=
  trailingNumberAfter '_' as_name

/-- `extract_node_from_isd_as`: `re.search(r':(\d+)$', isd_as)`, `int` of
group 1 (e.g. `1-ff00:0:110 -> 110`). -/
def extract_node_from_isd_as (isd_as : String) : Option Nat :=
  trailingNumberAfter ':' isd_as

/-- `node_to_ip`: AS number to host octet, currently the identity. -/
def node_to_ip (node_number : Nat) : Nat :=
  node_number

/-- The script's pervasive f-string `f'10.0.0.{ip}:{port}'` with a string
port (taken from a split of an existing address). -/
def fmtAddr (ip : Nat) (port : String) : String :=
  s!"10.0.0.{ip}:{port}"

/-- The f-string `f'10.0.0.{ip}:{connection_port}'` with a numeric port
(taken from the allocator). -/
def fmtAddrN (ip : Nat) (port : Nat) : String :=
  s!"10.0.0.{ip}:{port}"

/-- `PortAllocator`: manages port allocation for border-router interfaces. -/
structure PortAllocator where
  base_port : Nat
  next_port : Nat
  port_assignments : List ((Nat × Nat × Nat) × Nat)
  deriving DecidableEq

/-- `PortAllocator(base_port)`: counter starts at the base, empty dict. -/
def mkPortAllocator (base_port : Nat) : PortAllocator :=
  { base_port := base_port, next_port := base_port, port_assignments := [] }

/-- `PortAllocator.get_port`: canonical key `(min, max, link_index)`; return
the stored port if the key was already assigned, else assign `next_port`
and increment the counter.  Returns the port and the updated allocator. -/
def PortAllocator.get_port (self : PortAllocator) (node_a node_b : Nat)
    (link_index : Nat) : Nat × PortAllocator :=
  let smaller := min node_a node_b
  let larger := max node_a node_b
  let key := (smaller, larger, link_index)
  match lookupA self.port_assignments key with
  | some port => (port, self)
  | none =>
    let port := self.next_port
    (port, { self with
              port_assignments := self.port_assignments ++ [(key, port)],
              next_port := self.next_port + 1 })

/-- The canonical key `(min(a,b), max(a,b), link_index)` of one link. -/
def canonKey (node_a node_b link_index : Nat) : Nat × Nat × Nat :=
  (min node_a node_b, max node_a node_b, link_index)

/-- The canonical unordered pair of two nodes. -/
def pairOf (node_a node_b : Nat) : Nat × Nat :=
  (min node_a node_b, max node_a node_b)

theorem lookupA_append_right {l : List ((Nat × Nat × Nat) × Nat)}
    {k : Nat × Nat × Nat} (m : List ((Nat × Nat × Nat) × Nat))
    (h : lookupA l k = none) : lookupA (l ++ m) k = lookupA m k := by
  induction l with
  | nil => rfl
  | cons e rest ih =>
    by_cases he : e.1 = k
    · simp [lookupA, he] at h
    · simp only [lookupA, he, if_neg he, List.cons_append] at h ⊢
      exact ih h

theorem lookupA_append_left {l : List ((Nat × Nat × Nat) × Nat)}
    {k : Nat × Nat × Nat} {p : Nat} (m : List ((Nat × Nat × Nat) × Nat))
    (h : lookupA l k = some p) : lookupA (l ++ m) k = some p := by
  induction l with
  | nil => simp [lookupA] at h
  | cons e rest ih =>
    by_cases he : e.1 = k
    · simp only [lookupA, if_pos he] at h
      simp [lookupA, if_pos he, h]
    · simp only [lookupA, if_neg he] at h
      simp only [List.cons_append, lookupA, if_neg he]
      exact ih h

/-- After a `get_port` call, the canonical key maps to the returned port. -/
theorem get_port_records (a : PortAllocator) (x y i : Nat) :
    lookupA (a.get_port x y i).2.port_assignments (canonKey x y i) =
      some (a.get_port x y i).1 := by
  unfold PortAllocator.get_port canonKey
  cases h : lookupA a.port_assignments (min x y, max x y, i) with
  | some p => simp [h]
  | none =>
    simp only [h]
    rw [lookupA_append_right _ h]
    simp [lookupA]

/-- `get_port` never alters an existing assignment. -/
theorem get_port_mono (a : PortAllocator) (x y i : Nat)
    {k : Nat × Nat × Nat} {q : Nat}
    (h : lookupA a.port_assignments k = some q) :
    lookupA (a.get_port x y i).2.port_assignments k = some q := by
  unfold PortAllocator.get_port
  cases hl : lookupA a.port_assignments (min x y, max x y, i) with
  | some p => simpa [hl] using h
  | none =>
    simp only [hl]
    exact lookupA_append_left _ h

/-- If the canonical key is already assigned, `get_port` returns the stored
port and leaves the state unchanged. -/
theorem get_port_of_lookup {a : PortAllocator} {x y i p : Nat}
    (h : lookupA a.port_assignments (canonKey x y i) = some p) :
    a.get_port x y i = (p, a) := by
  unfold canonKey at h
  unfold PortAllocator.get_port
  simp [h]

/-- **C2.** `PortAllocator.get_port` is idempotent and node-order
independent: for every allocator state and every pair of nodes and link
ordinal, the first call gives the same result in either argument order, and
a repeated call (in either argument order) returns the same port and leaves
the allocator's state unchanged. -/
theorem get_port_idempotent_order_independent (a : PortAllocator)
    (x y i : Nat) :
    a.get_port x y i = a.get_port y x i ∧
    (a.get_port x y i).2.get_port x y i =
      ((a.get_port x y i).1, (a.get_port x y i).2) ∧
    (a.get_port x y i).2.get_port y x i =
      ((a.get_port x y i).1, (a.get_port x y i).2) := by
  have hsym : ∀ (b : PortAllocator), b.get_port x y i = b.get_port y x i := by
    intro b
    unfold PortAllocator.get_port
    rw [min_comm y x, max_comm y x]
  refine ⟨hsym a, ?_, ?_⟩
  · exact get_port_of_lookup (get_port_records a x y i)
  · rw [← hsym]
    exact get_port_of_lookup (get_port_records a x y i)

/-- One interface's `underlay` table: the JSON keys `local` and `remote`
(`local` is a Lean keyword, so the field is named `loc`). -/
structure Underlay where
  loc : Option String
  remote : Option String
  deriving DecidableEq

/-- One border-router interface: its `underlay` table and the peer's
`isd_as` identifier, each optional. -/
structure Interface where
  underlay : Option Underlay
  isd_as : Option String
  deriving DecidableEq

/-- One `border_routers` entry: `internal_addr` and the `interfaces` dict
keyed by interface id. -/
structure BorderRouter where
  internal_addr : Option String
  interfaces : Option (List (String × Interface))
  deriving DecidableEq

/-- One `control_service` / `discovery_service` entry (only the rewritten
`addr` key is relevant). -/
structure Service where
  addr : Option String
  deriving DecidableEq

/-- A `topology.json` document: presence of the `test_dispatcher` key plus
the three rewritten top-level tables. -/
structure Topology where
  test_dispatcher : Bool
  control_service : Option (List (String × Service))
  discovery_service : Option (List (String × Service))
  border_routers : Option (List (String × BorderRouter))
  deriving DecidableEq

/-- The loop body shared by the `control_service` and `discovery_service`
rewrites: if `'addr' in service_data`, take the port from the existing
address and set `addr = f'10.0.0.{ip}:{port}'`. -/
def updateServiceAddr (node_number : Nat) (service_data : Service) :
    Option Service :=
  match service_data.addr with
  | none => some service_data
  | some a =>
    match splitPort a with
    | none => none
    | some port => some { addr := some (fmtAddr (node_to_ip node_number) port) }

/-- The `for service_name, service_data in ... .items()` loop over one
service table. -/
def updateServices (node_number : Nat) :
    List (String × Service) → Option (List (String × Service))
  | [] => some []
  | e :: rest =>
    match updateServiceAddr node_number e.2 with
    | none => none
    | some s =>
      match updateServices node_number rest with
      | none => none
      | some rest2 => some ((e.1, s) :: rest2)

/-- `if 'control_service' in topology:` guard around the service loop. -/
def updateServicesOpt (node_number : Nat) :
    Option (List (String × Service)) → Option (Option (List (String × Service)))
  | none => some none
  | some l =>
    match updateServices node_number l with
    | none => none
    | some l2 => some (some l2)

/-- The first loop over `topology['border_routers'].items()`: remember the
last rewritten `internal_addr` seen and collect `all_interfaces` with
Python dict-assignment semantics.  The accumulator pair carries
(`consolidated_internal_addr`, `all_interfaces`). -/
def collectBorderRouters (node_number : Nat) :
    List (String × BorderRouter) → Option String → List (String × Interface) →
    Option (Option String × List (String × Interface))
  | [], accIa, accIf => some (accIa, accIf)
  | br :: rest, accIa, accIf =>
    let step : Option (Option String) :=
      match br.2.internal_addr with
      | none => some accIa
      | some a =>
        match splitPort a with
        | none => none
        | some port => some (some (fmtAddr (node_to_ip node_number) port))
    match step with
    | none => none
    | some accIa2 =>
      let accIf2 :=
        match br.2.interfaces with
        | none => accIf
        | some ifs => ifs.foldl (fun m e => dictInsert m e.1 e.2) accIf
      collectBorderRouters node_number rest accIa2 accIf2

/-- `remote_node` computation: `if 'isd_as' in interface_data:` then
`extract_node_from_isd_as`, else stays `None`. -/
def interfaceRemote (interface_data : Interface) : Option Nat :=
  match interface_data.isd_as with
  | none => none
  | some s => extract_node_from_isd_as s

/-- Rewriting of one underlay: `if 'local' in underlay:` replace it, and
likewise for `'remote'`. -/
def rewriteUnderlay (u : Underlay) (l r : String) : Underlay :=
  { loc := u.loc.map (fun _ => l), remote := u.remote.map (fun _ => r) }

/-- The second loop (`for interface_id, interface_data in all_interfaces`):
for each interface with an `underlay` and a parseable peer, take the next
link index for the canonical node pair, request a port from the shared
allocator, and rewrite the local/remote underlay addresses.  Returns the
rewritten interface list, the final `link_counters`, and the allocator. -/
def processInterfaces (node_number : Nat) :
    List (String × Interface) → List ((Nat × Nat) × Nat) → PortAllocator →
    List (String × Interface) × List ((Nat × Nat) × Nat) × PortAllocator
  | [], ctrs, alloc => ([], ctrs, alloc)
  | e :: rest, ctrs, alloc =>
    match e.2.underlay with
    | none =>
      let out := processInterfaces node_number rest ctrs alloc
      (e :: out.1, out.2)
    | some underlay =>
      match interfaceRemote e.2 with
      | none =>
        let out := processInterfaces node_number rest ctrs alloc
        (e :: out.1, out.2)
      | some remote_node =>
        let node_pair := (min node_number remote_node, max node_number remote_node)
        let link_index := ctrGet ctrs node_pair
        let ctrs2 := ctrSet ctrs node_pair (link_index + 1)
        let res := alloc.get_port node_number remote_node link_index
        let upd := rewriteUnderlay underlay
          (fmtAddrN (node_to_ip node_number) res.1)
          (fmtAddrN (node_to_ip remote_node) res.1)
        let out := processInterfaces node_number rest ctrs2 res.2
        ((e.1, { e.2 with underlay := some upd }) :: out.1, out.2)

/-- `update_topology_json`: delete `test_dispatcher`, rewrite the two
service tables, and consolidate all border routers into a single entry
`'br'` whose interfaces carry freshly allocated link ports.  Returns the
rewritten document and the updated shared allocator; `none` models an
uncaught exception. -/
def update_topology_json (node_number : Nat) (alloc : PortAllocator)
    (topology : Topology) : Option (Topology × PortAllocator) :=
  match updateServicesOpt node_number topology.control_service with
  | none => none
  | some cs =>
    match updateServicesOpt node_number topology.discovery_service with
    | none => none
    | some ds =>
      match topology.border_routers with
      | none =>
        some ({ test_dispatcher := false, control_service := cs,
                discovery_service := ds, border_routers := none }, alloc)
      | some brs =>
        match collectBorderRouters node_number brs none [] with
        | none => none
        | some (consolidated_internal_addr, all_interfaces) =>
          let out := processInterfaces node_number all_interfaces [] alloc
          some ({ test_dispatcher := false, control_service := cs,
                  discovery_service := ds,
                  border_routers := some [("br",
                    { internal_addr := consolidated_internal_addr,
                      interfaces := some out.1 })] }, out.2.2)

/-- The peer node that one interface contributes to the link-matching
algorithm: `some` exactly when the interface has an `underlay` table and a
peer identifier that parses to a node number (the two guards of the loop). -/
def validRemote (e : String × Interface) : Option Nat :=
  match e.2.underlay with
  | none => none
  | some _ => interfaceRemote e.2

/-- Number of interfaces in a list that the loop matches against peer `y`
(underlay present and peer identifier parsing to `y`). -/
def countPeer (L : List (String × Interface)) (y : Nat) : Nat :=
  L.countP (fun e => decide (validRemote e = some y))

/-- One iteration of the interface loop: the rewritten entry and the updated
`(link_counters, allocator)` state. -/
def stepOf (n : Nat) (c : List ((Nat × Nat) × Nat)) (a : PortAllocator)
    (e : String × Interface) :
    (String × Interface) × List ((Nat × Nat) × Nat) × PortAllocator :=
  match e.2.underlay with
  | none => (e, c, a)
  | some u =>
    match interfaceRemote e.2 with
    | none => (e, c, a)
    | some m =>
      let node_pair := (min n m, max n m)
      let link_index := ctrGet c node_pair
      let res := a.get_port n m link_index
      ((e.1, { e.2 with underlay := some (rewriteUnderlay u
          (fmtAddrN (node_to_ip n) res.1) (fmtAddrN (node_to_ip m) res.1)) }),
       ctrSet c node_pair (link_index + 1), res.2)

theorem processInterfaces_cons (n : Nat) (e : String × Interface)
    (rest : List (String × Interface)) (c : List ((Nat × Nat) × Nat))
    (a : PortAllocator) :
    processInterfaces n (e :: rest) c a =
      ((stepOf n c a e).1 ::
        (processInterfaces n rest (stepOf n c a e).2.1 (stepOf n c a e).2.2).1,
       (processInterfaces n rest (stepOf n c a e).2.1 (stepOf n c a e).2.2).2) := by
  cases hu : e.2.underlay with
  | none => simp [processInterfaces, stepOf, hu]
  | some u =>
    cases hr : interfaceRemote e.2 with
    | none => simp [processInterfaces, stepOf, hu, hr]
    | some m => simp [processInterfaces, stepOf, hu, hr]

theorem stepOf_invalid {e : String × Interface} (n : Nat)
    (c : List ((Nat × Nat) × Nat)) (a : PortAllocator)
    (h : validRemote e = none) : stepOf n c a e = (e, c, a) := by
  cases hu : e.2.underlay with
  | none => simp [stepOf, hu]
  | some u =>
    have hr : interfaceRemote e.2 = none := by
      rw [validRemote, hu] at h
      simpa using h
    simp [stepOf, hu, hr]

theorem stepOf_valid {e : String × Interface} {u : Underlay} {m : Nat}
    (n : Nat) (c : List ((Nat × Nat) × Nat)) (a : PortAllocator)
    (hu : e.2.underlay = some u) (hr : interfaceRemote e.2 = some m) :
    stepOf n c a e =
      ((e.1, { e.2 with underlay := some (rewriteUnderlay u
          (fmtAddrN (node_to_ip n) (a.get_port n m (ctrGet c (pairOf n m))).1)
          (fmtAddrN (node_to_ip m) (a.get_port n m (ctrGet c (pairOf n m))).1)) }),
       ctrSet c (pairOf n m) (ctrGet c (pairOf n m) + 1),
       (a.get_port n m (ctrGet c (pairOf n m))).2) := by
  simp [stepOf, hu, hr, pairOf]

theorem validRemote_some {e : String × Interface} {m : Nat}
    (h : validRemote e = some m) :
    ∃ u, e.2.underlay = some u ∧ interfaceRemote e.2 = some m := by
  cases hu : e.2.underlay with
  | none => rw [validRemote, hu] at h; exact absurd h (by simp)
  | some u => rw [validRemote, hu] at h; exact ⟨u, rfl, h⟩

theorem ctrGet_map_same {l : List ((Nat × Nat) × Nat)} {k : Nat × Nat}
    {v : Nat} (h : k ∈ l.map Prod.fst) :
    ctrGet (l.map (fun e => if e.1 = k then (k, v) else e)) k = v := by
  induction l with
  | nil => simp at h
  | cons e rest ih =>
    by_cases he : e.1 = k
    · simp [ctrGet, he]
    · simp only [List.map_cons, if_neg he, ctrGet, he, if_false]
      apply ih
      rw [List.map_cons] at h
      rcases List.mem_cons.mp h with h1 | h2
      · exact absurd h1.symm he
      · exact h2

theorem ctrGet_append_absent {l : List ((Nat × Nat) × Nat)} {k : Nat × Nat}
    {v : Nat} : ctrGet (l ++ [(k, v)]) k = if k ∈ l.map Prod.fst then ctrGet l k else v := by
  induction l with
  | nil => simp [ctrGet]
  | cons e rest ih =>
    by_cases he : e.1 = k
    · simp [ctrGet, he]
    · have hk : ¬ k = e.1 := fun hk => he hk.symm
      simp only [List.cons_append, ctrGet, he, if_false, List.map_cons,
        List.mem_cons, hk, false_or]
      exact ih

theorem ctrGet_ctrSet_same (l : List ((Nat × Nat) × Nat)) (k : Nat × Nat)
    (v : Nat) : ctrGet (ctrSet l k v) k = v := by
  unfold ctrSet
  by_cases h : l.any (fun e => decide (e.1 = k))
  · rw [if_pos h]
    apply ctrGet_map_same
    rcases List.any_eq_true.mp h with ⟨e, he, hek⟩
    exact List.mem_map.mpr ⟨e, he, of_decide_eq_true hek⟩
  · rw [if_neg h, ctrGet_append_absent]
    have : k ∉ l.map Prod.fst := by
      intro hk
      rcases List.mem_map.mp hk with ⟨e, he, hek⟩
      exact h (List.any_eq_true.mpr ⟨e, he, decide_eq_true hek⟩)
    simp [this]

theorem ctrGet_map_ne {l : List ((Nat × Nat) × Nat)} {k k2 : Nat × Nat}
    {v : Nat} (hne : k2 ≠ k) :
    ctrGet (l.map (fun e => if e.1 = k2 then (k2, v) else e)) k = ctrGet l k := by
  induction l with
  | nil => rfl
  | cons e rest ih =>
    by_cases he : e.1 = k2
    · have hek : ¬ e.1 = k := by rw [he]; exact hne
      simp only [List.map_cons, if_pos he, ctrGet, hne, if_false, hek, ih]
    · simp only [List.map_cons, if_neg he, ctrGet]
      by_cases hek : e.1 = k
      · simp [hek]
      · simp [hek, ih]

theorem ctrGet_append_ne {l : List ((Nat × Nat) × Nat)} {k k2 : Nat × Nat}
    {v : Nat} (hne : k2 ≠ k) : ctrGet (l ++ [(k2, v)]) k = ctrGet l k := by
  induction l with
  | nil => simp [ctrGet, hne]
  | cons e rest ih =>
    by_cases he : e.1 = k
    · simp [ctrGet, he]
    · simp [ctrGet, he, ih]

theorem ctrGet_ctrSet_ne (l : List ((Nat × Nat) × Nat)) {k k2 : Nat × Nat}
    (v : Nat) (hne : k2 ≠ k) : ctrGet (ctrSet l k2 v) k = ctrGet l k := by
  unfold ctrSet
  by_cases h : l.any (fun e => decide (e.1 = k2))
  · rw [if_pos h]
    exact ctrGet_map_ne hne
  · rw [if_neg h]
    exact ctrGet_append_ne hne

/-- For a fixed first node, the canonical unordered pair determines the
second node. -/
theorem pairOf_inj {x m y : Nat} (h : pairOf x m = pairOf x y) : m = y := by
  unfold pairOf at h
  have h1 : min x m = min x y := congrArg Prod.fst h
  have h2 : max x m = max x y := congrArg Prod.snd h
  have hsum : min x m + max x m = min x y + max x y := by rw [h1, h2]
  rw [min_add_max, min_add_max] at hsum
  omega

/-- The final `link_counters` value for one canonical node pair counts the
interfaces of the processed list that match that pair's peer. -/
theorem process_ctr_invariant (n y : Nat) :
    ∀ (L : List (String × Interface)) (c : List ((Nat × Nat) × Nat))
      (a : PortAllocator),
      ctrGet (processInterfaces n L c a).2.1 (pairOf n y) =
        ctrGet c (pairOf n y) + countPeer L y := by
  intro L
  induction L with
  | nil => intro c a; simp [processInterfaces, countPeer]
  | cons e rest ih =>
    intro c a
    rw [processInterfaces_cons]
    cases hv : validRemote e with
    | none =>
      rw [stepOf_invalid n c a hv]
      have : countPeer (e :: rest) y = countPeer rest y := by
        simp [countPeer, List.countP_cons, hv]
      rw [this]
      exact ih c a
    | some m =>
      rcases validRemote_some hv with ⟨u, hu, hr⟩
      rw [stepOf_valid n c a hu hr]
      by_cases hmy : m = y
      · subst hmy
        have : countPeer (e :: rest) m = countPeer rest m + 1 := by
          simp [countPeer, List.countP_cons, hv]
        rw [this, ih, ctrGet_ctrSet_same]
        omega
      · have hpair : pairOf n m ≠ pairOf n y := fun hp => hmy (pairOf_inj hp)
        have : countPeer (e :: rest) y = countPeer rest y := by
          simp only [countPeer, List.countP_cons]
          have : ¬ validRemote e = some y := by
            rw [hv]; intro hc; exact hmy (Option.some_injective _ hc)
          simp [this]
        rw [this, ih, ctrGet_ctrSet_ne _ _ hpair]

/-- Processing never alters an existing port assignment. -/
theorem process_mono (n : Nat) :
    ∀ (L : List (String × Interface)) (c : List ((Nat × Nat) × Nat))
      (a : PortAllocator) (k : Nat × Nat × Nat) (q : Nat),
      lookupA a.port_assignments k = some q →
      lookupA (processInterfaces n L c a).2.2.port_assignments k = some q := by
  intro L
  induction L with
  | nil => intro c a k q h; simpa [processInterfaces] using h
  | cons e rest ih =>
    intro c a k q h
    rw [processInterfaces_cons]
    cases hv : validRemote e with
    | none =>
      rw [stepOf_invalid n c a hv]
      exact ih c a k q h
    | some m =>
      rcases validRemote_some hv with ⟨u, hu, hr⟩
      rw [stepOf_valid n c a hu hr]
      exact ih _ _ k q (get_port_mono a n m _ h)

/-- Processing preserves the interface ids, in order. -/
theorem process_keys (n : Nat) :
    ∀ (L : List (String × Interface)) (c : List ((Nat × Nat) × Nat))
      (a : PortAllocator),
      (processInterfaces n L c a).1.map Prod.fst = L.map Prod.fst := by
  intro L
  induction L with
  | nil => intro c a; simp [processInterfaces]
  | cons e rest ih =>
    intro c a
    rw [processInterfaces_cons]
    cases hv : validRemote e with
    | none =>
      rw [stepOf_invalid n c a hv]
      simp [ih]
    | some m =>
      rcases validRemote_some hv with ⟨u, hu, hr⟩
      rw [stepOf_valid n c a hu hr]
      simp [ih]

/-- Processing a concatenation processes the prefix, then the suffix from
the prefix's final state. -/
theorem process_append (n : Nat) (P : List (String × Interface)) :
    ∀ (S : List (String × Interface)) (c : List ((Nat × Nat) × Nat))
      (a : PortAllocator) oP cP aP,
      processInterfaces n P c a = (oP, cP, aP) →
      processInterfaces n (P ++ S) c a =
        (oP ++ (processInterfaces n S cP aP).1,
         (processInterfaces n S cP aP).2) := by
  induction P with
  | nil =>
    intro S c a oP cP aP h
    simp only [processInterfaces] at h
    cases h
    simp
  | cons e P ih =>
    intro S c a oP cP aP h
    rw [processInterfaces_cons] at h
    have hfst : oP = (stepOf n c a e).1 ::
        (processInterfaces n P (stepOf n c a e).2.1 (stepOf n c a e).2.2).1 :=
      (congrArg Prod.fst h).symm
    have hsnd :
        (processInterfaces n P (stepOf n c a e).2.1 (stepOf n c a e).2.2).2 =
          (cP, aP) := congrArg Prod.snd h
    have hP : processInterfaces n P (stepOf n c a e).2.1 (stepOf n c a e).2.2 =
        ((processInterfaces n P (stepOf n c a e).2.1 (stepOf n c a e).2.2).1,
          cP, aP) := by
      rw [← hsnd]
    rw [List.cons_append, processInterfaces_cons, ih S _ _ _ cP aP hP, hfst]
    simp

/-- Central characterization of the interface loop at one matched interface:
in `P ++ e :: S`, if `e` has an underlay and its peer parses to `y`, the
loop rewrites `e` using link index
`ctrGet c (pairOf n y) + countPeer P y` — the number of interfaces before
`e` matched against the same canonical node pair (plus the counter's
initial value) — and requests that key's port from the allocator reached
after the prefix. -/
theorem process_middle (n y : Nat) (P S : List (String × Interface))
    (e : String × Interface) (u : Underlay)
    (hu : e.2.underlay = some u) (hr : interfaceRemote e.2 = some y)
    (c : List ((Nat × Nat) × Nat)) (a : PortAllocator)
    (oP : List (String × Interface)) (cP : List ((Nat × Nat) × Nat))
    (aP : PortAllocator) (hP : processInterfaces n P c a = (oP, cP, aP))
    (k : Nat) (hk : k = ctrGet c (pairOf n y) + countPeer P y) :
    processInterfaces n (P ++ e :: S) c a =
      (oP ++ (e.1, { e.2 with underlay := some (rewriteUnderlay u
          (fmtAddrN (node_to_ip n) (aP.get_port n y k).1)
          (fmtAddrN (node_to_ip y) (aP.get_port n y k).1)) }) ::
        (processInterfaces n S (ctrSet cP (pairOf n y) (k + 1))
          (aP.get_port n y k).2).1,
       (processInterfaces n S (ctrSet cP (pairOf n y) (k + 1))
          (aP.get_port n y k).2).2) := by
  have hc : ctrGet cP (pairOf n y) = k := by
    have := process_ctr_invariant n y P c a
    rw [hP] at this
    rw [hk]
    exact this
  rw [process_append n P (e :: S) c a oP cP aP hP, processInterfaces_cons,
    stepOf_valid n cP aP hu hr, hc]

/-- A successful rewrite determines the service tables and clears the
`test_dispatcher` marker. -/
theorem update_success_parts {n : Nat} {alloc : PortAllocator} {t t2 : Topology}
    {a2 : PortAllocator} (h : update_topology_json n alloc t = some (t2, a2)) :
    ∃ cs ds, updateServicesOpt n t.control_service = some cs ∧
      updateServicesOpt n t.discovery_service = some ds ∧
      t2.control_service = cs ∧ t2.discovery_service = ds ∧
      t2.test_dispatcher = false := by
  unfold update_topology_json at h
  cases hcs : updateServicesOpt n t.control_service with
  | none => rw [hcs] at h; simp at h
  | some cs =>
    rw [hcs] at h; dsimp only at h
    cases hds : updateServicesOpt n t.discovery_service with
    | none => rw [hds] at h; simp at h
    | some ds =>
      rw [hds] at h; dsimp only at h
      refine ⟨cs, ds, rfl, rfl, ?_⟩
      cases hbr : t.border_routers with
      | none =>
        rw [hbr] at h; dsimp only at h
        have heq := Option.some.inj h
        rw [Prod.mk.injEq] at heq
        obtain ⟨h1, h2⟩ := heq
        subst h1
        exact ⟨rfl, rfl, rfl⟩
      | some brs =>
        rw [hbr] at h; dsimp only at h
        cases hcol : collectBorderRouters n brs none [] with
        | none => rw [hcol] at h; simp at h
        | some acc =>
          rw [hcol] at h; dsimp only at h
          have heq := Option.some.inj h
          rw [Prod.mk.injEq] at heq
          obtain ⟨h1, h2⟩ := heq
          subst h1
          exact ⟨rfl, rfl, rfl⟩

/-- A successful rewrite of a document with a `border_routers` table yields
exactly one border router `'br'`, built from the collected interfaces as
processed by the interface loop, and the shared allocator advanced by that
loop. -/
theorem update_success_br {n : Nat} {alloc : PortAllocator} {t t2 : Topology}
    {a2 : PortAllocator} {brs : List (String × BorderRouter)}
    {ia : Option String} {L : List (String × Interface)}
    (h : update_topology_json n alloc t = some (t2, a2))
    (hbr : t.border_routers = some brs)
    (hcol : collectBorderRouters n brs none [] = some (ia, L)) :
    t2.border_routers = some [("br",
      { internal_addr := ia,
        interfaces := some (processInterfaces n L [] alloc).1 })] ∧
    a2 = (processInterfaces n L [] alloc).2.2 := by
  unfold update_topology_json at h
  cases hcs : updateServicesOpt n t.control_service with
  | none => rw [hcs] at h; simp at h
  | some cs =>
    rw [hcs] at h; dsimp only at h
    cases hds : updateServicesOpt n t.discovery_service with
    | none => rw [hds] at h; simp at h
    | some ds =>
      rw [hds] at h; dsimp only at h
      rw [hbr] at h; dsimp only at h
      rw [hcol] at h; dsimp only at h
      have heq := Option.some.inj h
      rw [Prod.mk.injEq] at heq
      obtain ⟨h1, h2⟩ := heq
      subst h1
      subst h2
      exact ⟨rfl, rfl⟩

theorem canonKey_comm (x y i : Nat) : canonKey x y i = canonKey y x i := by
  simp [canonKey, min_comm, max_comm]

theorem process_length (n : Nat) (L : List (String × Interface))
    (c : List ((Nat × Nat) × Nat)) (a : PortAllocator) :
    (processInterfaces n L c a).1.length = L.length := by
  have h := congrArg List.length (process_keys n L c a)
  simpa using h

/-- **C1.** For two nodes `A ≠ B` whose descriptors each contain an
interface naming the other as peer — matched at the same per-pair position
(`countPeer` of the respective prefixes equal: mutually consistent relative
declaration order) — running `update_topology_json` on both descriptors
with the shared allocator rewrites both interfaces with one identical
allocated port `p`; the local address of A's interface equals the remote
address of B's (`10.0.0.A:p`) and vice versa (`10.0.0.B:p`): host octets
mirrored. -/
theorem update_topology_link_endpoints_agree
    (A B k : Nat) (_hAB : A ≠ B)
    (tA tB tA2 tB2 : Topology) (alloc0 alloc1 alloc2 : PortAllocator)
    (brsA brsB : List (String × BorderRouter)) (iaA iaB : Option String)
    (PA SA PB SB : List (String × Interface))
    (eA eB : String × Interface) (uA uB : Underlay) (lA0 rA0 lB0 rB0 : String)
    (hbrA : tA.border_routers = some brsA)
    (hcolA : collectBorderRouters A brsA none [] = some (iaA, PA ++ eA :: SA))
    (hbrB : tB.border_routers = some brsB)
    (hcolB : collectBorderRouters B brsB none [] = some (iaB, PB ++ eB :: SB))
    (huA : eA.2.underlay = some uA) (hlA : uA.loc = some lA0)
    (hrA : uA.remote = some rA0) (hpeerA : interfaceRemote eA.2 = some B)
    (huB : eB.2.underlay = some uB) (hlB : uB.loc = some lB0)
    (hrB : uB.remote = some rB0) (hpeerB : interfaceRemote eB.2 = some A)
    (hordA : countPeer PA B = k) (hordB : countPeer PB A = k)
    (hupA : update_topology_json A alloc0 tA = some (tA2, alloc1))
    (hupB : update_topology_json B alloc1 tB = some (tB2, alloc2)) :
    ∃ p oPA oSA oPB oSB,
      tA2.border_routers = some [("br",
        { internal_addr := iaA,
          interfaces := some (oPA ++ (eA.1,
            { eA.2 with underlay := some ({ loc := some (fmtAddrN (node_to_ip A) p),
                                            remote := some (fmtAddrN (node_to_ip B) p) } : Underlay) }) :: oSA) })] ∧
      tB2.border_routers = some [("br",
        { internal_addr := iaB,
          interfaces := some (oPB ++ (eB.1,
            { eB.2 with underlay := some ({ loc := some (fmtAddrN (node_to_ip B) p),
                                            remote := some (fmtAddrN (node_to_ip A) p) } : Underlay) }) :: oSB) })] ∧
      oPA.length = PA.length ∧ oPB.length = PB.length := by
  obtain ⟨hbrOutA, hallocA⟩ := update_success_br hupA hbrA hcolA
  obtain ⟨hbrOutB, hallocB⟩ := update_success_br hupB hbrB hcolB
  have hkA : k = ctrGet [] (pairOf A B) + countPeer PA B := by
    rw [hordA]; simp [ctrGet]
  have hkB : k = ctrGet [] (pairOf B A) + countPeer PB A := by
    rw [hordB]; simp [ctrGet]
  have hmidA := process_middle A B PA SA eA uA huA hpeerA [] alloc0
    (processInterfaces A PA [] alloc0).1 (processInterfaces A PA [] alloc0).2.1
    (processInterfaces A PA [] alloc0).2.2 rfl k hkA
  have hmidB := process_middle B A PB SB eB uB huB hpeerB [] alloc1
    (processInterfaces B PB [] alloc1).1 (processInterfaces B PB [] alloc1).2.1
    (processInterfaces B PB [] alloc1).2.2 rfl k hkB
  have hrec : lookupA alloc1.port_assignments (canonKey A B k) =
      some ((processInterfaces A PA [] alloc0).2.2.get_port A B k).1 := by
    rw [hallocA, hmidA]
    exact process_mono A SA _ _ _ _
      (get_port_records (processInterfaces A PA [] alloc0).2.2 A B k)
  have hlookB : lookupA
      (processInterfaces B PB [] alloc1).2.2.port_assignments (canonKey B A k) =
      some ((processInterfaces A PA [] alloc0).2.2.get_port A B k).1 := by
    rw [canonKey_comm]
    exact process_mono B PB _ _ _ _ hrec
  have hgpB : (processInterfaces B PB [] alloc1).2.2.get_port B A k =
      (((processInterfaces A PA [] alloc0).2.2.get_port A B k).1,
       (processInterfaces B PB [] alloc1).2.2) := get_port_of_lookup hlookB
  rw [hgpB] at hmidB
  refine ⟨((processInterfaces A PA [] alloc0).2.2.get_port A B k).1,
    (processInterfaces A PA [] alloc0).1,
    (processInterfaces A SA
      (ctrSet (processInterfaces A PA [] alloc0).2.1 (pairOf A B) (k + 1))
      ((processInterfaces A PA [] alloc0).2.2.get_port A B k).2).1,
    (processInterfaces B PB [] alloc1).1,
    (processInterfaces B SB
      (ctrSet (processInterfaces B PB [] alloc1).2.1 (pairOf B A) (k + 1))
      (processInterfaces B PB [] alloc1).2.2).1,
    ?_, ?_, process_length A PA [] alloc0, process_length B PB [] alloc1⟩
  · rw [hbrOutA, hmidA]
    simp [rewriteUnderlay, hlA, hrA]
  · rw [hbrOutB, hmidB]
    simp [rewriteUnderlay, hlB, hrB]

/-- Sample input for node 110: one border router with one interface whose
peer is AS 111 (the spec's end-to-end example). -/
def sampleTopoA : Topology :=
  { test_dispatcher := true,
    control_service := some [("cs-1", { addr := some "127.0.0.12:30252" })],
    discovery_service := none,
    border_routers := some [("br1-ff00_0_110-1",
      { internal_addr := some "127.0.0.10:30042",
        interfaces := some [("1",
          { underlay := some { loc := some "127.0.0.1:50000",
                               remote := some "127.0.0.2:50000" },
            isd_as := some "1-ff00:0:111" })] })] }

/-- Sample input for node 111, mirroring `sampleTopoA`. -/
def sampleTopoB : Topology :=
  { test_dispatcher := false,
    control_service := none,
    discovery_service := some [("ds-1", { addr := some "127.0.0.13:30254" })],
    border_routers := some [("brX",
      { internal_addr := some "127.0.0.11:30042",
        interfaces := some [("7",
          { underlay := some { loc := some "127.0.0.3:50000",
                               remote := some "127.0.0.4:50000" },
            isd_as := some "1-ff00:0:110" })] })] }

/-- The interface of `sampleTopoA`. -/
def sampleIfA : String × Interface :=
  ("1", { underlay := some { loc := some "127.0.0.1:50000",
                             remote := some "127.0.0.2:50000" },
          isd_as := some "1-ff00:0:111" })

/-- The interface of `sampleTopoB`. -/
def sampleIfB : String × Interface :=
  ("7", { underlay := some { loc := some "127.0.0.3:50000",
                             remote := some "127.0.0.4:50000" },
          isd_as := some "1-ff00:0:110" })

/-- Rewritten output for `sampleTopoA`. -/
def sampleOutA : Topology :=
  { test_dispatcher := false,
    control_service := some [("cs-1", { addr := some "10.0.0.110:30252" })],
    discovery_service := none,
    border_routers := some [("br",
      { internal_addr := some "10.0.0.110:30042",
        interfaces := some [("1",
          { underlay := some { loc := some "10.0.0.110:50000",
                               remote := some "10.0.0.111:50000" },
            isd_as := some "1-ff00:0:111" })] })] }

/-- Rewritten output for `sampleTopoB`. -/
def sampleOutB : Topology :=
  { test_dispatcher := false,
    control_service := none,
    discovery_service := some [("ds-1", { addr := some "10.0.0.111:30254" })],
    border_routers := some [("br",
      { internal_addr := some "10.0.0.111:30042",
        interfaces := some [("7",
          { underlay := some { loc := some "10.0.0.111:50000",
                               remote := some "10.0.0.110:50000" },
            isd_as := some "1-ff00:0:110" })] })] }

/-- Allocator state after the link 110-111 received port 50000. -/
def sampleAlloc1 : PortAllocator :=
  { base_port := 50000, next_port := 50001,
    port_assignments := [((110, 111, 0), 50000)] }

/-- Witness for C1: the two sample descriptors, rewritten with one shared
allocator, are assigned the identical port 50000 with mirrored hosts. -/
theorem update_topology_link_endpoints_agree_witness :
    update_topology_json 110 (mkPortAllocator 50000) sampleTopoA =
      some (sampleOutA, sampleAlloc1) ∧
    update_topology_json 111 sampleAlloc1 sampleTopoB =
      some (sampleOutB, sampleAlloc1) ∧
    ∃ p oPA oSA oPB oSB,
      sampleOutA.border_routers = some [("br",
        { internal_addr := some "10.0.0.110:30042",
          interfaces := some (oPA ++ (sampleIfA.1,
            { sampleIfA.2 with underlay := some ({ loc := some (fmtAddrN (node_to_ip 110) p),
                                                    remote := some (fmtAddrN (node_to_ip 111) p) } : Underlay) }) :: oSA) })] ∧
      sampleOutB.border_routers = some [("br",
        { internal_addr := some "10.0.0.111:30042",
          interfaces := some (oPB ++ (sampleIfB.1,
            { sampleIfB.2 with underlay := some ({ loc := some (fmtAddrN (node_to_ip 111) p),
                                                    remote := some (fmtAddrN (node_to_ip 110) p) } : Underlay) }) :: oSB) })] ∧
      oPA.length = ([] : List (String × Interface)).length ∧
      oPB.length = ([] : List (String × Interface)).length := by
  refine ⟨by decide, by decide, ?_⟩
  exact update_topology_link_endpoints_agree 110 111 0 (by decide)
    sampleTopoA sampleTopoB sampleOutA sampleOutB
    (mkPortAllocator 50000) sampleAlloc1 sampleAlloc1
    [("br1-ff00_0_110-1",
      { internal_addr := some "127.0.0.10:30042",
        interfaces := some [sampleIfA] })]
    [("brX",
      { internal_addr := some "127.0.0.11:30042",
        interfaces := some [sampleIfB] })]
    (some "10.0.0.110:30042") (some "10.0.0.111:30042")
    [] [] [] [] sampleIfA sampleIfB
    { loc := some "127.0.0.1:50000", remote := some "127.0.0.2:50000" }
    { loc := some "127.0.0.3:50000", remote := some "127.0.0.4:50000" }
    "127.0.0.1:50000" "127.0.0.2:50000" "127.0.0.3:50000" "127.0.0.4:50000"
    (by decide) (by decide) (by decide) (by decide)
    (by decide) (by decide) (by decide) (by decide)
    (by decide) (by decide) (by decide) (by decide)
    (by decide) (by decide) (by decide) (by decide)

/-- Allocator well-formedness: the assigned ports, in insertion order, are
exactly `base_port, base_port + 1, …, next_port - 1` — fresh ports are
handed out in strictly increasing order starting at the base and are never
reused. -/
def PortAllocator.WF (a : PortAllocator) : Prop :=
  a.base_port ≤ a.next_port ∧
  a.port_assignments.map (fun e => e.2) =
    List.range' a.base_port (a.next_port - a.base_port)

theorem WF_mkPortAllocator (b : Nat) : (mkPortAllocator b).WF := by
  constructor
  · exact le_refl b
  · simp [mkPortAllocator]

theorem WF_get_port {a : PortAllocator} (x y i : Nat) (h : a.WF) :
    ((a.get_port x y i).2).WF := by
  obtain ⟨hle, hmap⟩ := h
  unfold PortAllocator.get_port
  cases hl : lookupA a.port_assignments (min x y, max x y, i) with
  | some p =>
    simp only [hl]
    exact ⟨hle, hmap⟩
  | none =>
    simp only [hl]
    constructor
    · dsimp only
      omega
    · dsimp only
      have h1 : a.next_port + 1 - a.base_port = (a.next_port - a.base_port) + 1 := by
        omega
      have h2 : a.next_port = a.base_port + (a.next_port - a.base_port) := by
        omega
      rw [List.map_append, hmap, h1]
      have h3 : List.range' a.base_port ((a.next_port - a.base_port) + 1) =
          List.range' a.base_port (a.next_port - a.base_port) ++
            [a.base_port + (a.next_port - a.base_port)] := by
        simpa using
          @List.range'_concat 1 a.base_port (a.next_port - a.base_port)
      rw [h3, ← h2]
      simp

theorem lookupA_mem {l : List ((Nat × Nat × Nat) × Nat)}
    {k : Nat × Nat × Nat} {p : Nat} (h : lookupA l k = some p) : (k, p) ∈ l := by
  induction l with
  | nil => simp [lookupA] at h
  | cons e rest ih =>
    by_cases he : e.1 = k
    · simp only [lookupA, if_pos he] at h
      have he2 : e = (k, p) := by
        cases e
        simp only [Prod.mk.injEq]
        exact ⟨he, Option.some.inj h⟩
      rw [he2]
      exact List.mem_cons_self _ _
    · simp only [lookupA, if_neg he] at h
      exact List.mem_cons_of_mem _ (ih h)

theorem WF_lookup_injective {a : PortAllocator} (h : a.WF)
    {k1 k2 : Nat × Nat × Nat} {p1 p2 : Nat}
    (h1 : lookupA a.port_assignments k1 = some p1)
    (h2 : lookupA a.port_assignments k2 = some p2)
    (hne : k1 ≠ k2) : p1 ≠ p2 := by
  intro hp
  have hnd : (a.port_assignments.map (fun e => e.2)).Nodup := by
    rw [h.2]
    exact List.nodup_range' _ _
  have hinj := List.inj_on_of_nodup_map hnd
  have := hinj (lookupA_mem h1) (lookupA_mem h2) (by simpa using hp)
  exact hne (congrArg Prod.fst this)

theorem process_WF (n : Nat) :
    ∀ (L : List (String × Interface)) (c : List ((Nat × Nat) × Nat))
      (a : PortAllocator), a.WF → ((processInterfaces n L c a).2.2).WF := by
  intro L
  induction L with
  | nil => intro c a h; simpa [processInterfaces] using h
  | cons e rest ih =>
    intro c a h
    rw [processInterfaces_cons]
    cases hv : validRemote e with
    | none =>
      rw [stepOf_invalid n c a hv]
      exact ih c a h
    | some m =>
      rcases validRemote_some hv with ⟨u, hu, hr⟩
      rw [stepOf_valid n c a hu hr]
      exact ih _ _ (WF_get_port n m _ h)

theorem parallel_links_distinct_ports (n y : Nat)
    (P1 P2 S : List (String × Interface)) (e1 e2 : String × Interface)
    (u1 u2 : Underlay) (a : PortAllocator) (hWF : a.WF)
    (hu1 : e1.2.underlay = some u1) (hr1 : interfaceRemote e1.2 = some y)
    (hu2 : e2.2.underlay = some u2) (hr2 : interfaceRemote e2.2 = some y)
    (h01 : countPeer P1 y = 0) (h02 : countPeer P2 y = 0) :
    ∃ p0 p1,
      lookupA (processInterfaces n (P1 ++ e1 :: (P2 ++ e2 :: S)) [] a).2.2.port_assignments
        (canonKey n y 0) = some p0 ∧
      lookupA (processInterfaces n (P1 ++ e1 :: (P2 ++ e2 :: S)) [] a).2.2.port_assignments
        (canonKey n y 1) = some p1 ∧
      p0 ≠ p1 := by
  have hmid1 := process_middle n y P1 (P2 ++ e2 :: S) e1 u1 hu1 hr1 [] a
    (processInterfaces n P1 [] a).1 (processInterfaces n P1 [] a).2.1
    (processInterfaces n P1 [] a).2.2 rfl 0 (by simp [ctrGet, h01])
  have hk2 : (1 : Nat) =
      ctrGet (ctrSet (processInterfaces n P1 [] a).2.1 (pairOf n y) (0 + 1))
        (pairOf n y) + countPeer P2 y := by
    rw [ctrGet_ctrSet_same, h02]
  have hmid2 := process_middle n y P2 S e2 u2 hu2 hr2
    (ctrSet (processInterfaces n P1 [] a).2.1 (pairOf n y) (0 + 1))
    ((processInterfaces n P1 [] a).2.2.get_port n y 0).2
    (processInterfaces n P2
      (ctrSet (processInterfaces n P1 [] a).2.1 (pairOf n y) (0 + 1))
      ((processInterfaces n P1 [] a).2.2.get_port n y 0).2).1
    (processInterfaces n P2
      (ctrSet (processInterfaces n P1 [] a).2.1 (pairOf n y) (0 + 1))
      ((processInterfaces n P1 [] a).2.2.get_port n y 0).2).2.1
    (processInterfaces n P2
      (ctrSet (processInterfaces n P1 [] a).2.1 (pairOf n y) (0 + 1))
      ((processInterfaces n P1 [] a).2.2.get_port n y 0).2).2.2
    rfl 1 hk2
  have hF : (processInterfaces n (P1 ++ e1 :: (P2 ++ e2 :: S)) [] a).2.2 =
      (processInterfaces n S
        (ctrSet (processInterfaces n P2
          (ctrSet (processInterfaces n P1 [] a).2.1 (pairOf n y) (0 + 1))
          ((processInterfaces n P1 [] a).2.2.get_port n y 0).2).2.1
          (pairOf n y) (1 + 1))
        ((processInterfaces n P2
          (ctrSet (processInterfaces n P1 [] a).2.1 (pairOf n y) (0 + 1))
          ((processInterfaces n P1 [] a).2.2.get_port n y 0).2).2.2.get_port n y 1).2).2.2 := by
    rw [hmid1, hmid2]
  refine ⟨((processInterfaces n P1 [] a).2.2.get_port n y 0).1,
    ((processInterfaces n P2
      (ctrSet (processInterfaces n P1 [] a).2.1 (pairOf n y) (0 + 1))
      ((processInterfaces n P1 [] a).2.2.get_port n y 0).2).2.2.get_port n y 1).1,
    ?_, ?_, ?_⟩
  · rw [hF]
    apply process_mono
    apply get_port_mono
    apply process_mono
    exact get_port_records (processInterfaces n P1 [] a).2.2 n y 0
  · rw [hF]
    apply process_mono
    exact get_port_records _ n y 1
  · have hWFF : (processInterfaces n (P1 ++ e1 :: (P2 ++ e2 :: S)) [] a).2.2.WF := by
      apply process_WF
      exact hWF
    apply WF_lookup_injective hWFF
    · rw [hF]
      apply process_mono
      apply get_port_mono
      apply process_mono
      exact get_port_records (processInterfaces n P1 [] a).2.2 n y 0
    · rw [hF]
      apply process_mono
      exact get_port_records _ n y 1
    · simp [canonKey]

/-- **C3.** The allocator's assignment map is injective and monotone for
the lifetime of a run: the allocator `main` builds is well-formed
(assigned ports are exactly `base, base+1, …` in insertion order, starting
at 50000), `get_port` preserves well-formedness, distinct keys of a
well-formed allocator hold distinct ports (never reused), a fresh key
receives exactly the current counter value and advances it by one, and the
first two parallel links between one node pair (in declaration order)
receive ordinals 0 and 1 and two distinct ports. -/
theorem port_allocator_map_injective_monotone :
    (mkPortAllocator 50000).WF ∧
    (∀ (a : PortAllocator) (x y i : Nat), a.WF → ((a.get_port x y i).2).WF) ∧
    (∀ (a : PortAllocator) (k1 k2 : Nat × Nat × Nat) (p1 p2 : Nat), a.WF →
      lookupA a.port_assignments k1 = some p1 →
      lookupA a.port_assignments k2 = some p2 → k1 ≠ k2 → p1 ≠ p2) ∧
    (∀ (a : PortAllocator) (x y i : Nat),
      lookupA a.port_assignments (canonKey x y i) = none →
      (a.get_port x y i).1 = a.next_port ∧
      ((a.get_port x y i).2).next_port = a.next_port + 1) ∧
    (∀ (n y : Nat) (P1 P2 S : List (String × Interface))
       (e1 e2 : String × Interface) (u1 u2 : Underlay) (a : PortAllocator),
       a.WF → e1.2.underlay = some u1 → interfaceRemote e1.2 = some y →
       e2.2.underlay = some u2 → interfaceRemote e2.2 = some y →
       countPeer P1 y = 0 → countPeer P2 y = 0 →
       ∃ p0 p1,
         lookupA (processInterfaces n (P1 ++ e1 :: (P2 ++ e2 :: S)) [] a).2.2.port_assignments
           (canonKey n y 0) = some p0 ∧
         lookupA (processInterfaces n (P1 ++ e1 :: (P2 ++ e2 :: S)) [] a).2.2.port_assignments
           (canonKey n y 1) = some p1 ∧
         p0 ≠ p1) := by
  refine ⟨WF_mkPortAllocator 50000, fun a x y i h => WF_get_port x y i h,
    fun a k1 k2 p1 p2 h h1 h2 hne => WF_lookup_injective h h1 h2 hne,
    fun a x y i h => ?_,
    fun n y P1 P2 S e1 e2 u1 u2 a hWF hu1 hr1 hu2 hr2 h01 h02 =>
      parallel_links_distinct_ports n y P1 P2 S e1 e2 u1 u2 a hWF hu1 hr1
        hu2 hr2 h01 h02⟩
  unfold canonKey at h
  unfold PortAllocator.get_port
  simp [h]

instance portAllocatorWFDecidable (a : PortAllocator) : Decidable a.WF := by
  unfold PortAllocator.WF
  exact inferInstance

/-- First sample parallel-link interface (peer AS 2). -/
def wIf1 : String × Interface :=
  ("1", { underlay := some { loc := some "127.0.0.1:50000",
                             remote := some "127.0.0.2:50000" },
          isd_as := some "1-ff00:0:2" })

/-- Second sample parallel-link interface (peer AS 2 again). -/
def wIf2 : String × Interface :=
  ("2", { underlay := some { loc := some "127.0.0.5:50000",
                             remote := some "127.0.0.6:50000" },
          isd_as := some "1-ff00:0:2" })

/-- A well-formed allocator holding two assignments, for exercising key
injectivity. -/
def wAlloc2 : PortAllocator :=
  { base_port := 50000, next_port := 50002,
    port_assignments := [((1, 2, 0), 50000), ((1, 3, 0), 50001)] }

/-- Witness for C3 at concrete inputs. -/
theorem port_allocator_map_injective_monotone_witness :
    (mkPortAllocator 50000).WF ∧
    ((mkPortAllocator 50000).get_port 110 111 0).2.WF ∧
    (50000 : Nat) ≠ 50001 ∧
    ((mkPortAllocator 50000).get_port 110 111 0).1 = 50000 ∧
    ((mkPortAllocator 50000).get_port 110 111 0).2.next_port = 50000 + 1 ∧
    (∃ p0 p1,
      lookupA (processInterfaces 1 ([] ++ wIf1 :: ([] ++ wIf2 :: [])) []
        (mkPortAllocator 50000)).2.2.port_assignments (canonKey 1 2 0) = some p0 ∧
      lookupA (processInterfaces 1 ([] ++ wIf1 :: ([] ++ wIf2 :: [])) []
        (mkPortAllocator 50000)).2.2.port_assignments (canonKey 1 2 1) = some p1 ∧
      p0 ≠ p1) :=
  ⟨port_allocator_map_injective_monotone.1,
   port_allocator_map_injective_monotone.2.1 (mkPortAllocator 50000) 110 111 0
     (by decide),
   port_allocator_map_injective_monotone.2.2.1 wAlloc2 (1, 2, 0) (1, 3, 0)
     50000 50001 (by decide) (by decide) (by decide) (by decide),
   (port_allocator_map_injective_monotone.2.2.2.1 (mkPortAllocator 50000)
     110 111 0 (by decide)).1,
   (port_allocator_map_injective_monotone.2.2.2.1 (mkPortAllocator 50000)
     110 111 0 (by decide)).2,
   port_allocator_map_injective_monotone.2.2.2.2 1 2 [] [] [] wIf1 wIf2
     { loc := some "127.0.0.1:50000", remote := some "127.0.0.2:50000" }
     { loc := some "127.0.0.5:50000", remote := some "127.0.0.6:50000" }
     (mkPortAllocator 50000) (by decide) (by decide) (by decide) (by decide)
     (by decide) (by decide) (by decide)⟩

/-- **C10 (amended).** The per-pair ordinal used for a processed interface
equals the number of earlier interfaces (declaration order) that both
declare an underlay and have a peer identifier parsing to the same
canonical node pair (`countPeer`); interfaces failing either guard —
malformed peer identifiers in particular — never shift later ordinals. -/
theorem link_ordinal_counts_matched_interfaces (n y : Nat)
    (P S : List (String × Interface)) (e : String × Interface) (u : Underlay)
    (a : PortAllocator)
    (hu : e.2.underlay = some u) (hr : interfaceRemote e.2 = some y) :
    processInterfaces n (P ++ e :: S) [] a =
      ((processInterfaces n P [] a).1 ++
        (e.1, { e.2 with underlay := some (rewriteUnderlay u
          (fmtAddrN (node_to_ip n)
            (((processInterfaces n P [] a).2.2).get_port n y (countPeer P y)).1)
          (fmtAddrN (node_to_ip y)
            (((processInterfaces n P [] a).2.2).get_port n y (countPeer P y)).1)) }) ::
        (processInterfaces n S
          (ctrSet (processInterfaces n P [] a).2.1 (pairOf n y) (countPeer P y + 1))
          (((processInterfaces n P [] a).2.2).get_port n y (countPeer P y)).2).1,
       (processInterfaces n S
          (ctrSet (processInterfaces n P [] a).2.1 (pairOf n y) (countPeer P y + 1))
          (((processInterfaces n P [] a).2.2).get_port n y (countPeer P y)).2).2) :=
  process_middle n y P S e u hu hr [] a
    (processInterfaces n P [] a).1 (processInterfaces n P [] a).2.1
    (processInterfaces n P [] a).2.2 rfl (countPeer P y) (by simp [ctrGet])

/-- Interface with a parseable peer identifier but no underlay table. -/
def cIf0 : String × Interface :=
  ("0", { underlay := none, isd_as := some "1-ff00:0:2" })

/-- Interface with underlay and the same peer, declared after `cIf0`. -/
def cIf1 : String × Interface :=
  ("1", { underlay := some { loc := some "127.0.0.1:40000",
                             remote := some "127.0.0.2:40000" },
          isd_as := some "1-ff00:0:2" })

/-- Counterexample to C10 as stated: `cIf0` has a parseable peer identifier
for the same unordered node pair and precedes `cIf1`, so the claim predicts
ordinal 1 for `cIf1`; the code leaves the counter untouched for
underlay-less interfaces and assigns `cIf1` ordinal 0 — only the key
`(1, 2, 0)` is ever allocated and `(1, 2, 1)` is absent. -/
theorem link_ordinal_counterexample :
    interfaceRemote cIf0.2 = some 2 ∧
    (processInterfaces 1 [cIf0, cIf1] [] (mkPortAllocator 50000)).2.2.port_assignments =
      [((1, 2, 0), 50000)] ∧
    lookupA (processInterfaces 1 [cIf0, cIf1] []
      (mkPortAllocator 50000)).2.2.port_assignments (canonKey 1 2 1) = none := by
  decide

/-- The witness for C10 (amended): with `cIf0` before it, `cIf1` still gets
ordinal `countPeer [cIf0] 2 = 0`. -/
theorem link_ordinal_counts_matched_interfaces_witness :
    countPeer [cIf0] 2 = 0 ∧
    cIf1.2.underlay = some { loc := some "127.0.0.1:40000",
                             remote := some "127.0.0.2:40000" } ∧
    interfaceRemote cIf1.2 = some 2 ∧
    processInterfaces 1 ([cIf0] ++ cIf1 :: []) [] (mkPortAllocator 50000) =
      ((processInterfaces 1 [cIf0] [] (mkPortAllocator 50000)).1 ++
        (cIf1.1, { cIf1.2 with underlay := some (rewriteUnderlay
          { loc := some "127.0.0.1:40000", remote := some "127.0.0.2:40000" }
          (fmtAddrN (node_to_ip 1)
            (((processInterfaces 1 [cIf0] [] (mkPortAllocator 50000)).2.2).get_port
              1 2 (countPeer [cIf0] 2)).1)
          (fmtAddrN (node_to_ip 2)
            (((processInterfaces 1 [cIf0] [] (mkPortAllocator 50000)).2.2).get_port
              1 2 (countPeer [cIf0] 2)).1)) }) ::
        (processInterfaces 1 []
          (ctrSet (processInterfaces 1 [cIf0] [] (mkPortAllocator 50000)).2.1
            (pairOf 1 2) (countPeer [cIf0] 2 + 1))
          (((processInterfaces 1 [cIf0] [] (mkPortAllocator 50000)).2.2).get_port
            1 2 (countPeer [cIf0] 2)).2).1,
       (processInterfaces 1 []
          (ctrSet (processInterfaces 1 [cIf0] [] (mkPortAllocator 50000)).2.1
            (pairOf 1 2) (countPeer [cIf0] 2 + 1))
          (((processInterfaces 1 [cIf0] [] (mkPortAllocator 50000)).2.2).get_port
            1 2 (countPeer [cIf0] 2)).2).2) :=
  ⟨by decide, by decide, by decide,
   link_ordinal_counts_matched_interfaces 1 2 [cIf0] [] cIf1
     { loc := some "127.0.0.1:40000", remote := some "127.0.0.2:40000" }
     (mkPortAllocator 50000) (by decide) (by decide)⟩

/-- **C9.** An interface whose peer identifier fails to parse is left
entirely unchanged by the rewrite (underlay addresses untouched), no port
is requested for it — the suffix is processed from exactly the state the
prefix produced — and the remaining interfaces are still processed. -/
theorem malformed_peer_interface_untouched
    (n : Nat) (alloc : PortAllocator) (t t2 : Topology) (a2 : PortAllocator)
    (brs : List (String × BorderRouter)) (ia : Option String)
    (P S : List (String × Interface)) (e : String × Interface)
    (hup : update_topology_json n alloc t = some (t2, a2))
    (hbr : t.border_routers = some brs)
    (hcol : collectBorderRouters n brs none [] = some (ia, P ++ e :: S))
    (hr : interfaceRemote e.2 = none) :
    t2.border_routers = some [("br",
      { internal_addr := ia,
        interfaces := some ((processInterfaces n P [] alloc).1 ++ e ::
          (processInterfaces n S (processInterfaces n P [] alloc).2.1
            (processInterfaces n P [] alloc).2.2).1) })] ∧
    a2 = (processInterfaces n S (processInterfaces n P [] alloc).2.1
      (processInterfaces n P [] alloc).2.2).2.2 := by
  obtain ⟨hbrOut, halloc⟩ := update_success_br hup hbr hcol
  have hv : validRemote e = none := by
    unfold validRemote
    cases hu : e.2.underlay with
    | none => rfl
    | some u => exact hr
  have happ := process_append n P (e :: S) [] alloc
    (processInterfaces n P [] alloc).1 (processInterfaces n P [] alloc).2.1
    (processInterfaces n P [] alloc).2.2 rfl
  rw [processInterfaces_cons, stepOf_invalid n _ _ hv] at happ
  constructor
  · rw [hbrOut, happ]
  · rw [halloc, happ]

/-- An interface whose `isd_as` has no trailing `:<digits>` component. -/
def badIf : String × Interface :=
  ("9", { underlay := some { loc := some "127.0.0.9:50009",
                             remote := some "127.0.0.10:50009" },
          isd_as := some "1-ff00:0:bad" })

/-- Input descriptor holding only the malformed-peer interface. -/
def badTopo : Topology :=
  { test_dispatcher := false, control_service := none,
    discovery_service := none,
    border_routers := some [("br0",
      { internal_addr := none, interfaces := some [badIf] })] }

/-- Expected rewrite of `badTopo`. -/
def badTopoOut : Topology :=
  { test_dispatcher := false, control_service := none,
    discovery_service := none,
    border_routers := some [("br",
      { internal_addr := none, interfaces := some [badIf] })] }

/-- Witness for C9: the malformed-peer interface survives the rewrite
verbatim and the allocator is never consulted. -/
theorem malformed_peer_interface_untouched_witness :
    update_topology_json 7 (mkPortAllocator 50000) badTopo =
      some (badTopoOut, mkPortAllocator 50000) ∧
    interfaceRemote badIf.2 = none ∧
    badTopoOut.border_routers =
      some [("br",
        { internal_addr := none,
          interfaces := some ((processInterfaces 7 [] [] (mkPortAllocator 50000)).1 ++ badIf ::
            (processInterfaces 7 [] (processInterfaces 7 [] [] (mkPortAllocator 50000)).2.1
              (processInterfaces 7 [] [] (mkPortAllocator 50000)).2.2).1) })] ∧
    mkPortAllocator 50000 =
      (processInterfaces 7 [] (processInterfaces 7 [] [] (mkPortAllocator 50000)).2.1
        (processInterfaces 7 [] [] (mkPortAllocator 50000)).2.2).2.2 := by
  refine ⟨by decide, by decide, ?_, ?_⟩
  · exact (malformed_peer_interface_untouched 7 (mkPortAllocator 50000) badTopo
      badTopoOut (mkPortAllocator 50000)
      [("br0", { internal_addr := none, interfaces := some [badIf] })] none
      [] [] badIf (by decide) (by decide) (by decide) (by decide)).1
  · exact (malformed_peer_interface_untouched 7 (mkPortAllocator 50000) badTopo
      badTopoOut (mkPortAllocator 50000)
      [("br0", { internal_addr := none, interfaces := some [badIf] })] none
      [] [] badIf (by decide) (by decide) (by decide) (by decide)).2

/-- The `general` table of a service config (`config_dir`, and for the
border router an `id`). -/
structure GeneralSection where
  config_dir : String
  id : Option String
  deriving DecidableEq

/-- The `api` table (its `addr` key). -/
structure ApiSection where
  addr : Option String
  deriving DecidableEq

/-- The `sd` table of the daemon config (its `address` key). -/
structure SdSection where
  address : Option String
  deriving DecidableEq

/-- A loaded TOML service config: presence of the `metrics` and `tracing`
tables, plus every table the rewriters touch (`trust_db`/`beacon_db`/
`path_db` carry their `connection` value). -/
structure TomlConfig where
  metrics : Bool
  tracing : Bool
  general : Option GeneralSection
  trust_db : Option String
  beacon_db : Option String
  path_db : Option String
  api : Option ApiSection
  sd : Option SdSection
  deriving DecidableEq

/-- `update_br_toml`: drop `metrics`, set `config_dir` and the router id
`'br'`, and set the api address to `f'10.0.0.{ip}:31442'`. -/
def update_br_toml (node_number : Nat) (config : TomlConfig) : TomlConfig :=
  let config := { config with metrics := false }
  let config :=
    match config.general with
    | none => config
    | some g =>
      { config with
        general := some ({ g with config_dir := "/etc/scion/", id := some "br" }) }
  match config.api with
  | none => config
  | some a =>
    { config with
      api := some ({ a with addr := some (fmtAddr (node_to_ip node_number) "31442") }) }

/-- `update_cs_toml`: drop `metrics` and `tracing`, set `config_dir`,
rewrite the three database connections, and set the api address to
`f'10.0.0.{ip}:31152'`. -/
def update_cs_toml (node_number : Nat) (config : TomlConfig) : TomlConfig :=
  let config := { config with metrics := false }
  let config := { config with tracing := false }
  let config :=
    match config.general with
    | none => config
    | some g =>
      { config with
        general := some ({ g with config_dir := "/etc/scion/" }) }
  let config :=
    match config.trust_db with
    | none => config
    | some _ => { config with trust_db := some "/etc/scion/trust.db" }
  let config :=
    match config.beacon_db with
    | none => config
    | some _ => { config with beacon_db := some "/etc/scion/beacon.db" }
  let config :=
    match config.path_db with
    | none => config
    | some _ => { config with path_db := some "/etc/scion/path.db" }
  match config.api with
  | none => config
  | some a =>
    { config with
      api := some ({ a with addr := some (fmtAddr (node_to_ip node_number) "31152") }) }

/-- `update_sd_toml`: drop `metrics` and `tracing`, set `config_dir`,
rewrite the two database connections, set the `sd` address to
`f'10.0.0.{ip}:30255'` and the api address to `f'10.0.0.{ip}:30955'`. -/
def update_sd_toml (node_number : Nat) (config : TomlConfig) : TomlConfig :=
  let config := { config with metrics := false }
  let config := { config with tracing := false }
  let config :=
    match config.general with
    | none => config
    | some g =>
      { config with
        general := some ({ g with config_dir := "/etc/scion/" }) }
  let config :=
    match config.trust_db with
    | none => config
    | some _ => { config with trust_db := some "/etc/scion/trust.db" }
  let config :=
    match config.path_db with
    | none => config
    | some _ => { config with path_db := some "/etc/scion/path.db" }
  let config :=
    match config.sd with
    | none => config
    | some s =>
      { config with
        sd := some ({ s with address := some (fmtAddr (node_to_ip node_number) "30255") }) }
  match config.api with
  | none => config
  | some a =>
    { config with
      api := some ({ a with addr := some (fmtAddr (node_to_ip node_number) "30955") }) }

/-- A config carrying both environment sections. -/
def cfgTr : TomlConfig :=
  { metrics := true, tracing := true, general := none, trust_db := none,
    beacon_db := none, path_db := none, api := none, sd := none }

/-- Counterexample to C5 as stated: `update_br_toml` removes only
`metrics`; a border-router config that arrives with a `tracing` section
keeps it. -/
theorem removed_sections_counterexample :
    (update_br_toml 110 cfgTr).tracing = true ∧
    (update_br_toml 110 cfgTr).metrics = false := by
  decide

/-- **C5 (amended).** `metrics` is absent from all three rewritten configs,
`tracing` is absent from the rewritten control-service and daemon configs
(the border-router rewriter does not remove it), and `test_dispatcher` is
absent from every successfully rewritten topology descriptor. -/
theorem removed_sections_amended :
    (∀ (n : Nat) (c : TomlConfig),
      (update_br_toml n c).metrics = false ∧
      (update_cs_toml n c).metrics = false ∧
      (update_cs_toml n c).tracing = false ∧
      (update_sd_toml n c).metrics = false ∧
      (update_sd_toml n c).tracing = false) ∧
    (∀ (n : Nat) (alloc : PortAllocator) (t t2 : Topology) (a2 : PortAllocator),
      update_topology_json n alloc t = some (t2, a2) →
      t2.test_dispatcher = false) := by
  constructor
  · intro n c
    obtain ⟨m, tr, g, td, bd, pd, api, sd⟩ := c
    refine ⟨?_, ?_, ?_, ?_, ?_⟩ <;>
      [skip; skip; skip; skip; skip] <;>
      (first
        | (unfold update_br_toml
           cases g <;> cases api <;> rfl)
        | (unfold update_cs_toml
           cases g <;> cases td <;> cases bd <;> cases pd <;> cases api <;> rfl)
        | (unfold update_sd_toml
           cases g <;> cases td <;> cases pd <;> cases sd <;> cases api <;> rfl))
  · intro n alloc t t2 a2 hup
    obtain ⟨cs, ds, _, _, _, _, htd⟩ := update_success_parts hup
    exact htd

/-- Witness for C5 (amended) at concrete inputs. -/
theorem removed_sections_amended_witness :
    ((update_br_toml 110 cfgTr).metrics = false ∧
     (update_cs_toml 110 cfgTr).metrics = false ∧
     (update_cs_toml 110 cfgTr).tracing = false ∧
     (update_sd_toml 110 cfgTr).metrics = false ∧
     (update_sd_toml 110 cfgTr).tracing = false) ∧
    (update_topology_json 7 (mkPortAllocator 50000) badTopo =
      some (badTopoOut, mkPortAllocator 50000)) ∧
    badTopoOut.test_dispatcher = false :=
  ⟨removed_sections_amended.1 110 cfgTr, by decide,
   removed_sections_amended.2 7 (mkPortAllocator 50000) badTopo badTopoOut
     (mkPortAllocator 50000) (by decide)⟩

/-- A border-router config whose api address carries a port other than
31442. -/
def cfgApi : TomlConfig :=
  { metrics := false, tracing := false, general := none, trust_db := none,
    beacon_db := none, path_db := none,
    api := some { addr := some "10.1.0.1:9999" }, sd := none }

/-- Counterexample to C6 as stated: the claim demands the input port 9999
be preserved (`10.0.0.110:9999`); the rewriter instead writes the fixed
port 31442. -/
theorem api_address_counterexample :
    (update_br_toml 110 cfgApi).api = some { addr := some "10.0.0.110:31442" } ∧
    (update_br_toml 110 cfgApi).api ≠ some { addr := some "10.0.0.110:9999" } := by
  decide

/-- **C6 (amended).** Each config rewriter sets its service's api/listen
address to the node's mapped host octet with a fixed service-specific port
— 31442 (border router), 31152 (control service), 30955 (daemon api) and
30255 (daemon `sd` address) — discarding whatever port the input carried. -/
theorem api_addresses_use_fixed_ports :
    ∀ (n : Nat) (c : TomlConfig),
      (∀ a, c.api = some a →
        (update_br_toml n c).api =
          some { addr := some (fmtAddr (node_to_ip n) "31442") }) ∧
      (∀ a, c.api = some a →
        (update_cs_toml n c).api =
          some { addr := some (fmtAddr (node_to_ip n) "31152") }) ∧
      (∀ a, c.api = some a →
        (update_sd_toml n c).api =
          some { addr := some (fmtAddr (node_to_ip n) "30955") }) ∧
      (∀ s, c.sd = some s →
        (update_sd_toml n c).sd =
          some { address := some (fmtAddr (node_to_ip n) "30255") }) := by
  intro n c
  obtain ⟨m, tr, g, td, bd, pd, api, sd⟩ := c
  refine ⟨?_, ?_, ?_, ?_⟩
  · intro a h
    cases h
    unfold update_br_toml
    cases g <;> rfl
  · intro a h
    cases h
    unfold update_cs_toml
    cases g <;> cases td <;> cases bd <;> cases pd <;> rfl
  · intro a h
    cases h
    unfold update_sd_toml
    cases g <;> cases td <;> cases pd <;> cases sd <;> rfl
  · intro s h
    cases h
    unfold update_sd_toml
    cases g <;> cases td <;> cases pd <;> cases api <;> rfl

/-- Witness for C6 (amended): the `cfgApi` input, with port 9999, leaves
the rewriters with the fixed ports. -/
theorem api_addresses_use_fixed_ports_witness :
    cfgApi.api = some { addr := some "10.1.0.1:9999" } ∧
    (update_br_toml 110 cfgApi).api =
      some { addr := some (fmtAddr (node_to_ip 110) "31442") } ∧
    (update_cs_toml 110 cfgApi).api =
      some { addr := some (fmtAddr (node_to_ip 110) "31152") } ∧
    (update_sd_toml 110 cfgApi).api =
      some { addr := some (fmtAddr (node_to_ip 110) "30955") } :=
  ⟨by decide,
   (api_addresses_use_fixed_ports 110 cfgApi).1
     { addr := some "10.1.0.1:9999" } (by decide),
   (api_addresses_use_fixed_ports 110 cfgApi).2.1
     { addr := some "10.1.0.1:9999" } (by decide),
   (api_addresses_use_fixed_ports 110 cfgApi).2.2.1
     { addr := some "10.1.0.1:9999" } (by decide)⟩

theorem updateServices_spec (n : Nat) :
    ∀ (l l2 : List (String × Service)), updateServices n l = some l2 →
    List.Forall₂ (fun e e2 : String × Service => e2.1 = e.1 ∧
      (e.2.addr = none → e2.2 = e.2) ∧
      (∀ a h p, e.2.addr = some a → pySplit a ':' = [h, p] →
        e2.2.addr = some (fmtAddr (node_to_ip n) p))) l l2 := by
  intro l
  induction l with
  | nil =>
    intro l2 h
    simp only [updateServices] at h
    rw [← Option.some.inj h]
    exact List.Forall₂.nil
  | cons e rest ih =>
    intro l2 h
    simp only [updateServices] at h
    cases hs : updateServiceAddr n e.2 with
    | none => rw [hs] at h; simp at h
    | some s =>
      rw [hs] at h
      cases hr : updateServices n rest with
      | none => rw [hr] at h; simp at h
      | some rest2 =>
        rw [hr] at h; dsimp only at h
        rw [← Option.some.inj h]
        refine List.Forall₂.cons ⟨rfl, ?_, ?_⟩ (ih rest2 hr)
        · intro hnone
          unfold updateServiceAddr at hs
          rw [hnone] at hs
          dsimp only at hs
          exact (Option.some.inj hs).symm
        · intro a hsplit p ha hp
          unfold updateServiceAddr at hs
          rw [ha] at hs
          dsimp only at hs
          have hport : splitPort a = some p := by
            unfold splitPort
            rw [hp]
            rfl
          rw [hport] at hs
          dsimp only at hs
          rw [← Option.some.inj hs]

theorem updateServicesOpt_some {n : Nat} {l : List (String × Service)}
    {o : Option (List (String × Service))}
    (h : updateServicesOpt n (some l) = some o) :
    ∃ l2, o = some l2 ∧ updateServices n l = some l2 := by
  unfold updateServicesOpt at h
  dsimp only at h
  cases hl : updateServices n l with
  | none => rw [hl] at h; simp at h
  | some l2 =>
    rw [hl] at h; dsimp only at h
    exact ⟨l2, (Option.some.inj h).symm, rfl⟩

/-- **C7.** Every control-service and discovery-service entry carrying an
`addr` of the form `host:port` is rewritten to `10.0.0.<mapped octet>` with
the port component unchanged; entries without an `addr` are copied
verbatim. -/
theorem service_addresses_rewritten
    (n : Nat) (alloc : PortAllocator) (t t2 : Topology) (a2 : PortAllocator)
    (hup : update_topology_json n alloc t = some (t2, a2)) :
    (∀ l, t.control_service = some l →
      ∃ l2, t2.control_service = some l2 ∧
        List.Forall₂ (fun e e2 : String × Service => e2.1 = e.1 ∧
          (e.2.addr = none → e2.2 = e.2) ∧
          (∀ a h p, e.2.addr = some a → pySplit a ':' = [h, p] →
            e2.2.addr = some (fmtAddr (node_to_ip n) p))) l l2) ∧
    (∀ l, t.discovery_service = some l →
      ∃ l2, t2.discovery_service = some l2 ∧
        List.Forall₂ (fun e e2 : String × Service => e2.1 = e.1 ∧
          (e.2.addr = none → e2.2 = e.2) ∧
          (∀ a h p, e.2.addr = some a → pySplit a ':' = [h, p] →
            e2.2.addr = some (fmtAddr (node_to_ip n) p))) l l2) := by
  obtain ⟨cs, ds, hcs, hds, hcs2, hds2, _⟩ := update_success_parts hup
  constructor
  · intro l hl
    rw [hl] at hcs
    obtain ⟨l2, ho, hupd⟩ := updateServicesOpt_some hcs
    exact ⟨l2, by rw [hcs2, ho], updateServices_spec n l l2 hupd⟩
  · intro l hl
    rw [hl] at hds
    obtain ⟨l2, ho, hupd⟩ := updateServicesOpt_some hds
    exact ⟨l2, by rw [hds2, ho], updateServices_spec n l l2 hupd⟩

/-- Witness for C7: `sampleTopoA`'s control service `cs-1` with address
`127.0.0.12:30252` is rewritten to `10.0.0.110:30252` — host remapped,
port 30252 kept. -/
theorem service_addresses_rewritten_witness :
    update_topology_json 110 (mkPortAllocator 50000) sampleTopoA =
      some (sampleOutA, sampleAlloc1) ∧
    sampleTopoA.control_service =
      some [("cs-1", { addr := some "127.0.0.12:30252" })] ∧
    (∃ l2, sampleOutA.control_service = some l2 ∧
      List.Forall₂ (fun e e2 : String × Service => e2.1 = e.1 ∧
        (e.2.addr = none → e2.2 = e.2) ∧
        (∀ a h p, e.2.addr = some a → pySplit a ':' = [h, p] →
          e2.2.addr = some (fmtAddr (node_to_ip 110) p)))
        [("cs-1", { addr := some "127.0.0.12:30252" })] l2) :=
  ⟨by decide, by decide,
   (service_addresses_rewritten 110 (mkPortAllocator 50000) sampleTopoA
     sampleOutA sampleAlloc1 (by decide)).1
     [("cs-1", { addr := some "127.0.0.12:30252" })] (by decide)⟩

/-- Three-way comparison of two character lists by code point — the
comparison Python applies to the string components of the `(as_number,
as_name)` tuples that `build_as_to_node_mapping` sorts. -/
def cmpChars : List Char → List Char → Ordering
  | [], [] => Ordering.eq
  | [], _ :: _ => Ordering.lt
  | _ :: _, [] => Ordering.gt
  | a :: as, b :: bs =>
    if a.toNat < b.toNat then Ordering.lt
    else if b.toNat < a.toNat then Ordering.gt
    else cmpChars as bs

theorem charToNatInj {a b : Char} (h : a.toNat = b.toNat) : a = b := by
  unfold Char.toNat at h
  exact Char.eq_of_val_eq (UInt32.toNat.inj h)

theorem cmpChars_eq_iff : ∀ a b : List Char, cmpChars a b = Ordering.eq ↔ a = b
  | [], [] => by simp [cmpChars]
  | [], _ :: _ => by simp [cmpChars]
  | _ :: _, [] => by simp [cmpChars]
  | a :: as, b :: bs => by
    by_cases h1 : a.toNat < b.toNat
    · have hne : a ≠ b := fun hab => by rw [hab] at h1; omega
      simp [cmpChars, h1, hne]
    · by_cases h2 : b.toNat < a.toNat
      · have hne : a ≠ b := fun hab => by rw [hab] at h2; omega
        simp [cmpChars, h1, h2, hne]
      · have hab : a = b := charToNatInj (by omega)
        simp [cmpChars, h1, h2, hab, cmpChars_eq_iff as bs]

theorem cmpChars_swap : ∀ a b : List Char, cmpChars b a = (cmpChars a b).swap
  | [], [] => rfl
  | [], _ :: _ => rfl
  | _ :: _, [] => rfl
  | a :: as, b :: bs => by
    by_cases h1 : a.toNat < b.toNat
    · have h2 : ¬ b.toNat < a.toNat := by omega
      simp [cmpChars, h1, h2, Ordering.swap]
    · by_cases h2 : b.toNat < a.toNat
      · simp [cmpChars, h1, h2, Ordering.swap]
      · simp [cmpChars, h1, h2, cmpChars_swap as bs]

theorem cmpChars_lt_trans : ∀ a b c : List Char, cmpChars a b = Ordering.lt →
    cmpChars b c = Ordering.lt → cmpChars a c = Ordering.lt
  | [], [], _ :: _, _, _ => rfl
  | [], _ :: _, _ :: _, _, _ => rfl
  | [], [], [], hab, _ => by simp [cmpChars] at hab
  | [], _ :: _, [], _, hbc => by simp [cmpChars] at hbc
  | _ :: _, [], _, hab, _ => by simp [cmpChars] at hab
  | _ :: _, _ :: _, [], _, hbc => by simp [cmpChars] at hbc
  | a :: as, b :: bs, c :: cs, hab, hbc => by
    by_cases h1 : a.toNat < b.toNat
    · by_cases h2 : b.toNat < c.toNat
      · have : a.toNat < c.toNat := by omega
        simp [cmpChars, this]
      · by_cases h3 : c.toNat < b.toNat
        · simp [cmpChars, h3, if_neg (by omega : ¬ b.toNat < c.toNat)] at hbc
        · have hbceq : b.toNat = c.toNat := by omega
          have : a.toNat < c.toNat := by omega
          simp [cmpChars, this]
    · by_cases h2 : b.toNat < a.toNat
      · simp [cmpChars, h2, if_neg h1] at hab
      · have habeq : a.toNat = b.toNat := by omega
        by_cases h3 : b.toNat < c.toNat
        · have : a.toNat < c.toNat := by omega
          simp [cmpChars, this]
        · by_cases h4 : c.toNat < b.toNat
          · simp [cmpChars, h4, if_neg h3] at hbc
          · have h5 : ¬ a.toNat < c.toNat := by omega
            have h6 : ¬ c.toNat < a.toNat := by omega
            simp only [cmpChars, if_neg h1, if_neg h2] at hab
            simp only [cmpChars, if_neg h3, if_neg h4] at hbc
            simp only [cmpChars, if_neg h5, if_neg h6]
            exact cmpChars_lt_trans as bs cs hab hbc

/-- Python's tuple comparison on `(as_number, as_name)` pairs:
lexicographic, numbers first, names compared by code point. -/
def asOrder (a b : Nat × String) : Prop :=
  a.1 < b.1 ∨ (a.1 = b.1 ∧ cmpChars a.2.toList b.2.toList ≠ Ordering.gt)

instance asOrderDecidable : DecidableRel asOrder := fun a b =>
  inferInstanceAs (Decidable (a.1 < b.1 ∨
    (a.1 = b.1 ∧ cmpChars a.2.toList b.2.toList ≠ Ordering.gt)))

theorem strings_le_total (s t : String) :
    cmpChars s.toList t.toList ≠ Ordering.gt ∨
    cmpChars t.toList s.toList ≠ Ordering.gt := by
  cases h : cmpChars s.toList t.toList with
  | lt => exact Or.inl (by simp [h])
  | eq => exact Or.inl (by simp [h])
  | gt =>
    right
    rw [cmpChars_swap, h]
    simp [Ordering.swap]

instance asOrderTotal : IsTotal (Nat × String) asOrder := by
  constructor
  intro a b
  unfold asOrder
  rcases Nat.lt_trichotomy a.1 b.1 with h | h | h
  · exact Or.inl (Or.inl h)
  · rcases strings_le_total a.2 b.2 with h2 | h2
    · exact Or.inl (Or.inr ⟨h, h2⟩)
    · exact Or.inr (Or.inr ⟨h.symm, h2⟩)
  · exact Or.inr (Or.inl h)

theorem strings_le_trans {s t u : String}
    (h1 : cmpChars s.toList t.toList ≠ Ordering.gt)
    (h2 : cmpChars t.toList u.toList ≠ Ordering.gt) :
    cmpChars s.toList u.toList ≠ Ordering.gt := by
  cases hst : cmpChars s.toList t.toList with
  | gt => exact absurd hst h1
  | eq =>
    have : s.toList = t.toList := (cmpChars_eq_iff _ _).mp hst
    rw [this]
    exact h2
  | lt =>
    cases htu : cmpChars t.toList u.toList with
    | gt => exact absurd htu h2
    | eq =>
      have : t.toList = u.toList := (cmpChars_eq_iff _ _).mp htu
      rw [← this, hst]
      simp
    | lt =>
      rw [cmpChars_lt_trans _ _ _ hst htu]
      simp

instance asOrderTrans : IsTrans (Nat × String) asOrder := by
  constructor
  intro a b c hab hbc
  unfold asOrder at *
  rcases hab with h1 | ⟨h1, h1s⟩ <;> rcases hbc with h2 | ⟨h2, h2s⟩
  · exact Or.inl (h1.trans h2)
  · exact Or.inl (h2 ▸ h1)
  · exact Or.inl (h1 ▸ h2)
  · exact Or.inr ⟨h1.trans h2, strings_le_trans h1s h2s⟩

theorem strings_le_antisymm {s t : String}
    (h1 : cmpChars s.toList t.toList ≠ Ordering.gt)
    (h2 : cmpChars t.toList s.toList ≠ Ordering.gt) : s = t := by
  rw [cmpChars_swap] at h2
  have : cmpChars s.toList t.toList = Ordering.eq := by
    cases h : cmpChars s.toList t.toList
    · rw [h] at h2; simp [Ordering.swap] at h2
    · rfl
    · exact absurd h h1
  exact String.toList_inj.mp ((cmpChars_eq_iff _ _).mp this)

instance asOrderAntisymm : IsAntisymm (Nat × String) asOrder := by
  constructor
  intro a b hab hba
  unfold asOrder at *
  rcases hab with h1 | ⟨h1, h1s⟩ <;> rcases hba with h2 | ⟨h2, h2s⟩
  · exact absurd (h1.trans h2) (lt_irrefl _)
  · exact absurd h1 (h2 ▸ lt_irrefl _)
  · exact absurd h2 (h1 ▸ lt_irrefl _)
  · cases a
    cases b
    simp only [Prod.mk.injEq]
    exact ⟨h1, strings_le_antisymm h1s h2s⟩

/-- Python `name.startswith(pre)`, computed on the character lists. -/
def pyStartsWith (s pre : String) : Bool :=
  List.isPrefixOf pre.toList s.toList

/-- `build_as_to_node_mapping`: keep directories starting with `AS`,
extract each trailing number, sort the `(number, name)` pairs as Python
does, and produce the `name -> f'as_{num}'` mapping in that order. -/
def build_as_to_node_mapping (dirs : List String) : List (String × String) :=
  (List.insertionSort asOrder
    ((dirs.filter (fun d => pyStartsWith d "AS")).filterMap
      (fun name => (extract_as_number name).map (fun num => (num, name))))).map
    (fun p => (p.2, "as_" ++ toString p.1))

/-- **C8.** The node mapping is a pure function of the set of discovered
directory names: any permutation of the input produces the identical
mapping; the concrete names with trailing numbers 110, 112, 111 yield the
order 110, 111, 112; a name that does not match the pattern (`AS` prefix
and trailing `_<digits>`) is excluded without aborting (the builder is
total); and the mapping's extracted numbers are in ascending order. -/
theorem node_mapping_deterministic :
    (∀ dirs1 dirs2 : List String, dirs1.Perm dirs2 →
      build_as_to_node_mapping dirs1 = build_as_to_node_mapping dirs2) ∧
    build_as_to_node_mapping ["ASff00_0_110", "ASff00_0_112", "ASff00_0_111"] =
      [("ASff00_0_110", "as_110"), ("ASff00_0_111", "as_111"),
       ("ASff00_0_112", "as_112")] ∧
    (∀ (dirs : List String) (d : String),
      (¬ pyStartsWith d "AS" = true ∨ extract_as_number d = none) →
      d ∉ (build_as_to_node_mapping dirs).map Prod.fst) ∧
    (∀ dirs : List String, List.Sorted (fun x y : Nat => x ≤ y)
      ((build_as_to_node_mapping dirs).filterMap
        (fun p => extract_as_number p.1))) := by
  refine ⟨?_, by decide, ?_, ?_⟩
  · intro dirs1 dirs2 hperm
    unfold build_as_to_node_mapping
    have h1 := hperm.filter (fun d => pyStartsWith d "AS")
    have h2 := h1.filterMap (fun name =>
      (extract_as_number name).map (fun num => (num, name)))
    have hsort := List.eq_of_perm_of_sorted
      (((List.perm_insertionSort asOrder _).trans h2).trans
        (List.perm_insertionSort asOrder _).symm)
      (List.sorted_insertionSort asOrder _)
      (List.sorted_insertionSort asOrder _)
    rw [hsort]
  · intro dirs d hbad hmem
    unfold build_as_to_node_mapping at hmem
    rcases List.mem_map.mp hmem with ⟨pr, hpr, hfst⟩
    rcases List.mem_map.mp hpr with ⟨p, hp, hpe⟩
    have hpw : p ∈ (dirs.filter (fun d => pyStartsWith d "AS")).filterMap
        (fun name => (extract_as_number name).map (fun num => (num, name))) :=
      (List.perm_insertionSort asOrder _).subset hp
    rcases List.mem_filterMap.mp hpw with ⟨name, hname, hg⟩
    cases hx : extract_as_number name with
    | none => rw [hx] at hg; simp at hg
    | some num =>
      rw [hx] at hg
      simp only [Option.map_some'] at hg
      have hpn : p = (num, name) := (Option.some.inj hg).symm
      have hd : name = d := by
        rw [hpn] at hpe
        rw [← hpe] at hfst
        exact hfst
      rcases hbad with hb | hb
      · have := List.of_mem_filter hname
        rw [hd] at this
        exact hb this
      · rw [hd] at hx
        rw [hx] at hb
        exact Option.noConfusion hb
  · intro dirs
    unfold build_as_to_node_mapping
    have hsorted := List.sorted_insertionSort asOrder
      ((dirs.filter (fun d => pyStartsWith d "AS")).filterMap
        (fun name => (extract_as_number name).map (fun num => (num, name))))
    have hmem : ∀ p ∈ List.insertionSort asOrder
        ((dirs.filter (fun d => pyStartsWith d "AS")).filterMap
          (fun name => (extract_as_number name).map (fun num => (num, name)))),
        extract_as_number p.2 = some p.1 := by
      intro p hp
      have hpw := (List.perm_insertionSort asOrder _).subset hp
      rcases List.mem_filterMap.mp hpw with ⟨name, _, hg⟩
      cases hx : extract_as_number name with
      | none => rw [hx] at hg; simp at hg
      | some num =>
        rw [hx] at hg
        simp only [Option.map_some'] at hg
        have hpn : p = (num, name) := (Option.some.inj hg).symm
        rw [hpn]
        exact hx
    have key : ∀ (l : List (Nat × String)),
        (∀ p ∈ l, extract_as_number p.2 = some p.1) →
        (l.map (fun p => (p.2, "as_" ++ toString p.1))).filterMap
          (fun q => extract_as_number q.1) = l.map Prod.fst := by
      intro l
      induction l with
      | nil => intro _; simp
      | cons p rest ih =>
        intro h
        have hhd : extract_as_number p.2 = some p.1 :=
          h p (List.mem_cons_self p rest)
        simp only [List.map_cons, List.filterMap_cons, hhd]
        rw [ih (fun q hq => h q (List.mem_cons_of_mem p hq))]
    rw [key _ hmem]
    refine List.Pairwise.map Prod.fst ?_ hsorted
    intro a b hab
    rcases hab with h | ⟨h, _⟩
    · exact le_of_lt h
    · exact le_of_eq h

/-- Witness for C8: a concrete permutation gives the identical mapping, and
the non-matching names `certs` and `ASbad` are excluded. -/
theorem node_mapping_deterministic_witness :
    build_as_to_node_mapping ["ASff00_0_112", "certs", "ASff00_0_110"] =
      build_as_to_node_mapping ["ASff00_0_110", "ASff00_0_112", "certs"] ∧
    "certs" ∉ (build_as_to_node_mapping
      ["ASff00_0_110", "certs", "ASbad"]).map Prod.fst ∧
    "ASbad" ∉ (build_as_to_node_mapping
      ["ASff00_0_110", "certs", "ASbad"]).map Prod.fst ∧
    List.Sorted (fun x y : Nat => x ≤ y)
      ((build_as_to_node_mapping ["ASff00_0_110", "ASff00_0_112", "ASff00_0_111"]).filterMap
        (fun p => extract_as_number p.1)) :=
  ⟨node_mapping_deterministic.1 ["ASff00_0_112", "certs", "ASff00_0_110"]
    ["ASff00_0_110", "ASff00_0_112", "certs"] (by decide),
   node_mapping_deterministic.2.2.1 ["ASff00_0_110", "certs", "ASbad"]
     "certs" (Or.inl (by decide)),
   node_mapping_deterministic.2.2.1 ["ASff00_0_110", "certs", "ASbad"]
     "ASbad" (Or.inr (by decide)),
   node_mapping_deterministic.2.2.2 ["ASff00_0_110", "ASff00_0_112", "ASff00_0_111"]⟩

/-- The interface list one `border_routers` entry contributes (empty when
the entry has no `interfaces` table). -/
def brIfaces (br : String × BorderRouter) : List (String × Interface) :=
  match br.2.interfaces with
  | none => []
  | some ifs => ifs

/-- The union of the interface maps of all border-router entries, with
Python dict-assignment semantics (last-seen wins), as the spec describes
the consolidated interface set. -/
def unionIfaces (brs : List (String × BorderRouter))
    (acc : List (String × Interface)) : List (String × Interface) :=
  brs.foldl (fun m br => (brIfaces br).foldl (fun m e => dictInsert m e.1 e.2) m) acc

/-- The last `internal_addr` encountered while scanning the entries,
starting from `acc`. -/
def lastFrom (acc : Option String) :
    List (String × BorderRouter) → Option String
  | [] => acc
  | br :: rest =>
    lastFrom (match br.2.internal_addr with
              | some a => some a
              | none => acc) rest

/-- The last-seen original `internal_addr` among the border routers. -/
def lastInternal (brs : List (String × BorderRouter)) : Option String :=
  lastFrom none brs

/-- The interfaces a successful collection returns are exactly the
last-seen-wins union of the entries' interface maps. -/
theorem collect_interfaces (n : Nat) :
    ∀ (brs : List (String × BorderRouter)) (accIa : Option String)
      (accIf : List (String × Interface)) (ia : Option String)
      (L : List (String × Interface)),
      collectBorderRouters n brs accIa accIf = some (ia, L) →
      L = unionIfaces brs accIf := by
  intro brs
  induction brs with
  | nil =>
    intro accIa accIf ia L h
    simp only [collectBorderRouters] at h
    have heq := Option.some.inj h
    rw [Prod.mk.injEq] at heq
    rw [← heq.2]
    rfl
  | cons br rest ih =>
    intro accIa accIf ia L h
    simp only [collectBorderRouters] at h
    cases hia : br.2.internal_addr with
    | none =>
      rw [hia] at h; dsimp only at h
      have hrec := ih _ _ _ _ h
      rw [hrec]
      unfold unionIfaces
      rw [List.foldl_cons]
      cases hifs : br.2.interfaces with
      | none => simp [brIfaces, hifs]
      | some ifs => simp [brIfaces, hifs]
    | some ad =>
      rw [hia] at h; dsimp only at h
      cases hsp : splitPort ad with
      | none => rw [hsp] at h; simp at h
      | some p =>
        rw [hsp] at h; dsimp only at h
        have hrec := ih _ _ _ _ h
        rw [hrec]
        unfold unionIfaces
        rw [List.foldl_cons]
        cases hifs : br.2.interfaces with
        | none => simp [brIfaces, hifs]
        | some ifs => simp [brIfaces, hifs]

/-- The consolidated internal address a successful collection returns is
the last-seen `internal_addr`, rewritten to the mapped host octet with the
original port. -/
theorem collect_ia_gen (n : Nat) :
    ∀ (brs : List (String × BorderRouter)) (accIa : Option String)
      (accIf : List (String × Interface)) (ia : Option String)
      (L : List (String × Interface)) (acc : Option String),
      collectBorderRouters n brs accIa accIf = some (ia, L) →
      (∀ ad, acc = some ad →
        ∃ p, splitPort ad = some p ∧ accIa = some (fmtAddr (node_to_ip n) p)) →
      (lastFrom acc brs = none → ia = accIa ∧ acc = none) ∧
      (∀ ad, lastFrom acc brs = some ad →
        ∃ p, splitPort ad = some p ∧ ia = some (fmtAddr (node_to_ip n) p)) := by
  intro brs
  induction brs with
  | nil =>
    intro accIa accIf ia L acc h hinv
    simp only [collectBorderRouters] at h
    have heq := Option.some.inj h
    rw [Prod.mk.injEq] at heq
    constructor
    · intro hlf
      exact ⟨heq.1.symm, hlf⟩
    · intro ad hlf
      rcases hinv ad hlf with ⟨p, hsp, hia⟩
      exact ⟨p, hsp, heq.1 ▸ hia⟩
  | cons br rest ih =>
    intro accIa accIf ia L acc h hinv
    simp only [collectBorderRouters] at h
    cases hia : br.2.internal_addr with
    | none =>
      rw [hia] at h; dsimp only at h
      have hlf : ∀ x : Option String, lastFrom x (br :: rest) = lastFrom x rest := by
        intro x
        show lastFrom (match br.2.internal_addr with
                       | some a => some a
                       | none => x) rest = lastFrom x rest
        rw [hia]
      rw [hlf]
      exact ih _ _ _ _ acc h hinv
    | some ad0 =>
      rw [hia] at h; dsimp only at h
      cases hsp : splitPort ad0 with
      | none => rw [hsp] at h; simp at h
      | some p0 =>
        rw [hsp] at h; dsimp only at h
        have hlf : lastFrom acc (br :: rest) = lastFrom (some ad0) rest := by
          show lastFrom (match br.2.internal_addr with
                         | some a => some a
                         | none => acc) rest = lastFrom (some ad0) rest
          rw [hia]
        rw [hlf]
        have hinv2 : ∀ ad, (some ad0 : Option String) = some ad →
            ∃ p, splitPort ad = some p ∧
              some (fmtAddr (node_to_ip n) p0) = some (fmtAddr (node_to_ip n) p) := by
          intro ad had
          rw [← Option.some.inj had]
          exact ⟨p0, hsp, rfl⟩
        have := ih _ _ _ _ (some ad0) h hinv2
        constructor
        · intro hnone
          exact absurd (this.1 hnone).2 (by simp)
        · exact this.2

theorem dictInsert_absent {α : Type} (l : List (String × α)) (k : String)
    (v : α) (h : k ∉ l.map Prod.fst) : dictInsert l k v = l ++ [(k, v)] := by
  unfold dictInsert
  rw [if_neg]
  intro hany
  rcases List.any_eq_true.mp hany with ⟨e, he, hek⟩
  exact h (List.mem_map.mpr ⟨e, he, of_decide_eq_true hek⟩)

theorem foldl_dictInsert_append {α : Type} :
    ∀ (entries : List (String × α)) (acc : List (String × α)),
    (entries.map Prod.fst).Nodup →
    (∀ k ∈ entries.map Prod.fst, k ∉ acc.map Prod.fst) →
    entries.foldl (fun m e => dictInsert m e.1 e.2) acc = acc ++ entries := by
  intro entries
  induction entries with
  | nil => intro acc _ _; simp
  | cons e rest ih =>
    intro acc hnd hdisj
    rw [List.map_cons, List.nodup_cons] at hnd
    have hhead : dictInsert acc e.1 e.2 = acc ++ [(e.1, e.2)] :=
      dictInsert_absent acc e.1 e.2
        (hdisj e.1 (by simp))
    rw [List.foldl_cons, hhead, ih (acc ++ [(e.1, e.2)]) hnd.2 ?_]
    · rw [List.append_assoc]
      rfl
    · intro k hk
      rw [List.map_append, List.mem_append]
      rintro (hk1 | hk2)
      · exact hdisj k (by simp [hk]) hk1
      · have : k = e.1 := by simpa using hk2
        rw [this] at hk
        exact hnd.1 hk

theorem unionIfaces_eq_foldl_join :
    ∀ (brs : List (String × BorderRouter)) (acc : List (String × Interface)),
    unionIfaces brs acc =
      ((brs.map brIfaces).flatten).foldl (fun m e => dictInsert m e.1 e.2) acc := by
  intro brs
  induction brs with
  | nil => intro acc; rfl
  | cons br rest ih =>
    intro acc
    unfold unionIfaces
    rw [List.foldl_cons, List.map_cons, List.flatten_cons, List.foldl_append]
    exact ih _

/-- **C4.** A descriptor with a `border_routers` table is rewritten to
exactly one border-router entry keyed `'br'`; its interface map carries the
ids of the last-seen-wins union of the original entries' interface maps (so
with no id collisions its size is the sum of the original interface
counts), and its internal address is the last-seen original internal
address with the host replaced by the mapped node octet and the port
unchanged. -/
theorem border_routers_consolidated
    (n : Nat) (alloc : PortAllocator) (t t2 : Topology) (a2 : PortAllocator)
    (brs : List (String × BorderRouter)) (ia : Option String)
    (L : List (String × Interface))
    (hup : update_topology_json n alloc t = some (t2, a2))
    (hbr : t.border_routers = some brs)
    (hcol : collectBorderRouters n brs none [] = some (ia, L)) :
    ∃ L2, t2.border_routers =
        some [("br", { internal_addr := ia, interfaces := some L2 })] ∧
      L2.map Prod.fst = (unionIfaces brs []).map Prod.fst ∧
      ((((brs.map brIfaces).flatten).map Prod.fst).Nodup →
        L2.length = ((brs.map brIfaces).map List.length).sum) ∧
      (lastInternal brs = none → ia = none) ∧
      (∀ ad, lastInternal brs = some ad →
        ∃ p, splitPort ad = some p ∧ ia = some (fmtAddr (node_to_ip n) p)) := by
  obtain ⟨hbrOut, _⟩ := update_success_br hup hbr hcol
  have hL : L = unionIfaces brs [] := collect_interfaces n brs none [] ia L hcol
  refine ⟨(processInterfaces n L [] alloc).1, hbrOut, ?_, ?_, ?_, ?_⟩
  · rw [process_keys, hL]
  · intro hnodup
    rw [process_length, hL, unionIfaces_eq_foldl_join,
      foldl_dictInsert_append _ [] hnodup (by simp)]
    simp [List.length_flatten]
  · intro hnone
    exact ((collect_ia_gen n brs none [] ia L none hcol
      (fun ad had => Option.noConfusion had)).1 hnone).1
  · intro ad hlast
    exact (collect_ia_gen n brs none [] ia L none hcol
      (fun ad had => Option.noConfusion had)).2 ad hlast

/-- The two original border routers of the C4 witness. -/
def twoBrs : List (String × BorderRouter) :=
  [("br1", { internal_addr := some "127.0.0.1:3001",
             interfaces := some [("i1",
               { underlay := some { loc := some "127.0.0.3:5003",
                                    remote := some "127.0.0.4:5003" },
                 isd_as := some "1-ff00:0:111" })] }),
   ("br2", { internal_addr := some "127.0.0.2:3002",
             interfaces := some [("i2",
               { underlay := some { loc := some "127.0.0.5:5005",
                                    remote := some "127.0.0.6:5005" },
                 isd_as := some "1-ff00:0:112" })] })]

/-- Input descriptor with two border routers holding one interface each. -/
def twoBrTopo : Topology :=
  { test_dispatcher := false, control_service := none,
    discovery_service := none, border_routers := some twoBrs }

/-- Rewritten form of `twoBrTopo` for node 110. -/
def twoBrTopoOut : Topology :=
  { test_dispatcher := false, control_service := none,
    discovery_service := none,
    border_routers := some [("br",
      { internal_addr := some "10.0.0.110:3002",
        interfaces := some
          [("i1", { underlay := some { loc := some "10.0.0.110:50000",
                                       remote := some "10.0.0.111:50000" },
                    isd_as := some "1-ff00:0:111" }),
           ("i2", { underlay := some { loc := some "10.0.0.110:50001",
                                       remote := some "10.0.0.112:50001" },
                    isd_as := some "1-ff00:0:112" })] })] }

/-- Allocator state after rewriting `twoBrTopo`. -/
def twoBrAlloc : PortAllocator :=
  { base_port := 50000, next_port := 50002,
    port_assignments := [((110, 111, 0), 50000), ((110, 112, 0), 50001)] }

/-- Witness for C4: the two border routers consolidate into one entry
`'br'` with both interfaces, the internal address comes from the last-seen
original (`127.0.0.2:3002`, port kept, host remapped), and the interface
count is the sum 1 + 1. -/
theorem border_routers_consolidated_witness :
    update_topology_json 110 (mkPortAllocator 50000) twoBrTopo =
      some (twoBrTopoOut, twoBrAlloc) ∧
    lastInternal twoBrs = some "127.0.0.2:3002" ∧
    (∃ L2, twoBrTopoOut.border_routers =
        some [("br", { internal_addr := some "10.0.0.110:3002",
                       interfaces := some L2 })] ∧
      L2.map Prod.fst = (unionIfaces twoBrs []).map Prod.fst ∧
      ((((twoBrs.map brIfaces).flatten).map Prod.fst).Nodup →
        L2.length = ((twoBrs.map brIfaces).map List.length).sum) ∧
      (lastInternal twoBrs = none → (some "10.0.0.110:3002" : Option String) = none) ∧
      (∀ ad, lastInternal twoBrs = some ad →
        ∃ p, splitPort ad = some p ∧
          (some "10.0.0.110:3002" : Option String) =
            some (fmtAddr (node_to_ip 110) p))) :=
  ⟨by decide, by decide,
   border_routers_consolidated 110 (mkPortAllocator 50000) twoBrTopo
     twoBrTopoOut twoBrAlloc twoBrs (some "10.0.0.110:3002")
     ((twoBrs.map brIfaces).flatten) (by decide) (by decide) (by decide)⟩
